import Mathlib

/-!
Shallow embedding of the viscose-uploader repository (src/viscose_uploader)
and verification of the frozen claims about it.

Conventions used throughout:
* Python strings are Lean `String`s; operations such as `str.strip()` and
  `str.lower()` are modelled at the character-list level (`pyStrip`,
  `pyLower`, ...) so that they are easy to reason about.
* Python numbers (ints and floats) are modelled as rationals (`ℚ`).
* Spreadsheet cell values returned by the Sheets API are either strings or
  numbers and are modelled by the inductive type `Cell`.
* Fallible code (code that can raise) returns `Except String α`.
-/

/-- Decidable equality for `Except`, used to settle closed facts about the
fallible operations by `decide`. -/
instance {ε α : Type} [DecidableEq ε] [DecidableEq α] : DecidableEq (Except ε α)
  | .ok a, .ok b => if h : a = b then .isTrue (by rw [h]) else .isFalse (by simp [h])
  | .error a, .error b => if h : a = b then .isTrue (by rw [h]) else .isFalse (by simp [h])
  | .ok _, .error _ => .isFalse (by simp)
  | .error _, .ok _ => .isFalse (by simp)

namespace Viscose

/-- Model of `str.strip()` on a character list: drop whitespace at both ends
(`Char.isWhitespace` models Python whitespace for the ASCII inputs used here). -/
def stripChars (l : List Char) : List Char :=
  ((l.dropWhile Char.isWhitespace).reverse.dropWhile Char.isWhitespace).reverse

/-- Model of `str.strip()`. -/
def pyStrip (s : String) : String := ⟨stripChars s.data⟩

/-- Model of `str.lower()`. -/
def pyLower (s : String) : String := ⟨s.data.map Char.toLower⟩

/-- Model of `str.upper()`. -/
def pyUpper (s : String) : String := ⟨s.data.map Char.toUpper⟩

/-- Model of the common Python idiom `value.strip().lower()`. -/
def pyKey (s : String) : String := pyLower (pyStrip s)

/-- Characters kept by `_normalize_name` (`[a-z0-9]` after lowercasing). -/
def isLowerAlnum (c : Char) : Bool := c.isLower || c.isDigit

/-- google_client._normalize_name: drop every character outside `[a-z0-9]`
from the lowercased text. -/
def normalizeName (text : String) : String :=
  ⟨(pyLower text).data.filter isLowerAlnum⟩

/-- google_client._letters_only: drop every character outside `[a-z]`
from the lowercased text. -/
def lettersOnly (text : String) : String :=
  ⟨(pyLower text).data.filter Char.isLower⟩

/-- Helper for `_column_letter`: the loop
`while current > 0: current, remainder = divmod(current - 1, 26); result = chr(65 + remainder) + result`.
The `fuel` argument makes the recursion structural; every call site passes
`fuel ≥ n`, so the fuel-exhaustion branch is unreachable. -/
def columnLetterAux (fuel n : Nat) : List Char :=
  match fuel, n with
  | _, 0 => []
  | 0, _ + 1 => []
  | f + 1, m + 1 => columnLetterAux f (m / 26) ++ [Char.ofNat (65 + m % 26)]

/-- google_client._column_letter: 1-based column index to letters
(`result or "A"` makes the answer "A" for index 0). -/
def columnLetter (index : Nat) : String :=
  let result := columnLetterAux index index
  if result.isEmpty then "A" else ⟨result⟩

/-- The character-classification loop of `_cell_to_indexes`: split the cell
reference into its letter part and its digit part, rejecting digits before
letters and any other character. -/
def cellScan : List Char → List Char → List Char → Option (List Char × List Char)
  | [], letters, digits => some (letters, digits)
  | c :: rest, letters, digits =>
    if c.isAlpha then
      if digits.isEmpty then cellScan rest (letters ++ [c]) digits else none
    else if c.isDigit then cellScan rest letters (digits ++ [c])
    else none

/-- Numeric value of the letter part of a cell reference, as computed by
`_cell_to_indexes` (`col_index = col_index * 26 + (ord(char) - 64)`). -/
def lettersVal (letters : List Char) : Nat :=
  letters.foldl (fun a c => a * 26 + (c.toNat - 64)) 0

/-- Value of `int(digits)` for a string of decimal digits. -/
def digitsVal (digits : List Char) : Nat :=
  digits.foldl (fun a c => a * 10 + (c.toNat - 48)) 0

/-- google_client._cell_to_indexes: parse a cell reference such as "B7" into
zero-based `(row_index, col_index)`; `none` models returning `None`. -/
def cellToIndexes (cell : String) : Option (Nat × Nat) :=
  if cell.data.isEmpty then none
  else
    match cellScan (pyUpper (pyStrip cell)).data [] [] with
    | none => none
    | some (letters, digits) =>
      if letters.isEmpty || digits.isEmpty then none
      else
        let rowIndex := digitsVal digits
        if rowIndex = 0 then none
        else some (rowIndex - 1, lettersVal letters - 1)

/-! ## The spreadsheet model -/

/-- A cell value as returned by the Sheets API: a string or a number. -/
inductive Cell
  | str (s : String)
  | num (q : ℚ)
  deriving DecidableEq, Repr

/-- A worksheet grid: rows of cells. -/
abbrev Grid := List (List Cell)

/-- The remote spreadsheet: worksheet titles (in sheet order) with their
grids.  A single spreadsheet id is in play, so the id is left implicit. -/
structure SheetEnv where
  sheets : List (String × Grid)
  deriving DecidableEq, Repr

/-- google_client.GoogleSheetsClient._get_sheet_values: fetch a worksheet
grid; reading a worksheet that does not exist raises `GoogleClientError`. -/
def getSheetValues (env : SheetEnv) (worksheet : String) : Except String Grid :=
  match env.sheets.find? (fun p => p.1 == worksheet) with
  | some p => .ok p.2
  | none => .error ("Failed to read worksheet " ++ worksheet)

/-- Truthiness of an `Optional[str]` (`None` and the empty string are falsy). -/
def optStrTruthy : Option String → Bool
  | some s => !s.isEmpty
  | none => false

/-- google_client._find_progress_column, inner row scan: first 1-based index
whose cell is a string equal to "progress" after strip/lower. -/
def rowFindProgress : List Cell → Nat → Option Nat
  | [], _ => none
  | c :: rest, idx =>
    match c with
    | .str s => if pyKey s == "progress" then some idx else rowFindProgress rest (idx + 1)
    | .num _ => rowFindProgress rest (idx + 1)

/-- google_client._find_progress_column: scan the first 200 rows for a cell
labelled "progress" and return its 1-based column index. -/
def findProgressColumn (values : Grid) : Option Nat :=
  go (values.take 200)
where
  go : Grid → Option Nat
    | [] => none
    | row :: rest =>
      match rowFindProgress row 1 with
      | some idx => some idx
      | none => go rest

/-- google_client._find_score_columns, inner row scan: append (1-based)
indexes of header-candidate cells that are not yet in the accumulator. -/
def rowScoreColumns (headers : List String) : List Cell → Nat → List Nat → List Nat
  | [], _, acc => acc
  | c :: rest, idx, acc =>
    match c with
    | .str s =>
      if headers.contains (pyKey s) && !acc.contains idx then
        rowScoreColumns headers rest (idx + 1) (acc ++ [idx])
      else rowScoreColumns headers rest (idx + 1) acc
    | .num _ => rowScoreColumns headers rest (idx + 1) acc

/-- google_client._find_score_columns: 1-based indexes of columns whose
header (in the first 200 rows) is one of the candidates, in discovery order. -/
def findScoreColumns (values : Grid) (headers : List String) : List Nat :=
  (values.take 200).foldl (fun acc row => rowScoreColumns headers row 1 acc) []

/-- google_client._select_score_column. -/
def selectScoreColumn (scenarioCol : Nat) (scoreColumns : List Nat)
    (progressCol : Option Nat) : Nat :=
  match scoreColumns with
  | c :: _ => c
  | [] =>
    match progressCol with
    | some p => if 1 < p then p - 1 else max 1 (scenarioCol + 3)
    | none => max 1 (scenarioCol + 3)

/-- google_client._scenario_cell_matches: the cached label cell still holds
the scenario name (strip/lower comparison); out-of-range indexes fail. -/
def scenarioCellMatches (values : Grid) (scenarioCell : String)
    (scenarioKey : String) : Bool :=
  match cellToIndexes scenarioCell with
  | none => false
  | some (rowIdx, colIdx) =>
    match values.get? rowIdx with
    | none => false
    | some row =>
      match row.get? colIdx with
      | some (.str s) => pyKey s == scenarioKey
      | _ => false

/-- One row of the `_score_cell_matches` scan: the cell at the score column
exists and either is a header candidate, or the score column sits directly
right of a column whose cell in this row is labelled "progress". -/
def scoreRowMatch (row : List Cell) (colIdx : Nat) (progressCol : Option Nat)
    (headers : List String) : Bool :=
  match row.get? colIdx with
  | none => false
  | some cv =>
    (match cv with
     | .str s => headers.contains (pyKey s)
     | .num _ => false) ||
    (match progressCol with
     | none => false
     | some p =>
       let progressZero := p - 1
       colIdx == progressZero + 1 &&
         (match row.get? progressZero with
          | some (.str s) => pyKey s == "progress"
          | _ => false))

/-- google_client._score_cell_matches over the first 200 rows. -/
def scoreCellMatches (values : Grid) (scoreCell : String)
    (headers : List String) : Bool :=
  match cellToIndexes scoreCell with
  | none => false
  | some (_, colIdx) =>
    let progressCol := findProgressColumn values
    (values.take 200).any (fun row => scoreRowMatch row colIdx progressCol headers)

/-- The fuzzy-fallback record kept by `resolve_target_cell`
(`best_fallback = (title, score_cell, scenario_cell, diff)`). -/
structure Fallback where
  title : String
  scoreCell : String
  scenarioCell : String
  diff : Nat
  deriving DecidableEq, Repr

/-- The nested cell loop of `resolve_target_cell` on one row.  The exact-match
branch of the source (google_client.py lines 94-99) assigns local variables
`scenario_cell` and `score_cell` that are never read afterwards and does not
return, so it has no observable effect and no counterpart here; only the
normalized/letters fallback branch (lines 100-119) updates `best_fallback`,
and only under a strict `diff <` comparison. -/
def scanRowCells (title : String) (rowIdx : Nat) (norm letters : String)
    (scoreColumns : List Nat) (progressCol : Option Nat) :
    List Cell → Nat → Option Fallback → Option Fallback
  | [], _, best => best
  | c :: rest, colIdx, best =>
    let best' :=
      match c with
      | .str s =>
        if normalizeName s == norm || lettersOnly s == letters then
          let scenarioCell := columnLetter colIdx ++ toString rowIdx
          let scoreColIdx := selectScoreColumn colIdx scoreColumns progressCol
          let scoreCell := columnLetter scoreColIdx ++ toString rowIdx
          let diff := Nat.dist (normalizeName s).length norm.length
          match best with
          | none => some ⟨title, scoreCell, scenarioCell, diff⟩
          | some b =>
            if diff < b.diff then some ⟨title, scoreCell, scenarioCell, diff⟩
            else some b
        else best
      | .num _ => best
    scanRowCells title rowIdx norm letters scoreColumns progressCol rest (colIdx + 1) best'

/-- The row loop of `resolve_target_cell` over one worksheet grid. -/
def scanSheet (title : String) (norm letters : String) (scoreColumns : List Nat)
    (progressCol : Option Nat) : Grid → Nat → Option Fallback → Option Fallback
  | [], _, best => best
  | row :: rest, rowIdx, best =>
    scanSheet title norm letters scoreColumns progressCol rest (rowIdx + 1)
      (scanRowCells title rowIdx norm letters scoreColumns progressCol row 1 best)

/-- Header normalization at the top of `resolve_target_cell`
(`headers = [item.strip().lower() for item in header_candidates if item.strip()]`,
defaulting to `["your score"]`). -/
def resolveHeaders (headerCandidates : List String) : List String :=
  let headers := (headerCandidates.filter (fun i => !(pyStrip i).isEmpty)).map pyKey
  if headers.isEmpty then ["your score"] else headers

/-- Result of `resolve_target_cell`, extended with an account of the remote
accesses it made: `fetched` lists the worksheets fetched (each once, in
order, mirroring the per-worksheet cache) and `listed` records whether the
spreadsheet metadata (the worksheet list) was enumerated. -/
structure ResolveOut where
  worksheet : String
  scoreCell : String
  scenarioCell : String
  fetched : List String
  listed : Bool
  deriving DecidableEq, Repr

/-- The worksheet loop of `resolve_target_cell` (google_client.py lines
82-119), threading the fallback and the fetch log. -/
def resolveScanSheets (env : SheetEnv) (norm letters : String)
    (headers : List String) (allowed : Option (List String)) :
    List String → Option Fallback → List String →
    Except String (Option Fallback × List String)
  | [], best, fetched => .ok (best, fetched)
  | title :: rest, best, fetched =>
    if (match allowed with
        | some ts => !ts.contains title
        | none => false) then
      resolveScanSheets env norm letters headers allowed rest best fetched
    else
      match getSheetValues env title with
      | .error e => .error e
      | .ok values =>
        let fetched' := if fetched.contains title then fetched else fetched ++ [title]
        if values.isEmpty then
          resolveScanSheets env norm letters headers allowed rest best fetched'
        else
          let progressCol := findProgressColumn values
          let scoreColumns := findScoreColumns values headers
          let best' := scanSheet title norm letters scoreColumns progressCol values 1 best
          resolveScanSheets env norm letters headers allowed rest best' fetched'

/-- google_client.GoogleSheetsClient.resolve_target_cell for a fresh client
(empty caches).  Beyond the `(worksheet, score_cell, scenario_cell)` triple
of the source it reports which worksheets were fetched and whether the sheet
list was enumerated. -/
def resolveTargetCell (env : SheetEnv) (scenarioName : String)
    (headerCandidates : List String) (worksheetFilter : Option (List String))
    (cachedSheet cachedScoreCell cachedScenarioCell : Option String) :
    Except String ResolveOut :=
  let scenarioKey := pyKey scenarioName
  let scenarioNorm := normalizeName scenarioName
  let scenarioLetters := lettersOnly scenarioName
  let headers := resolveHeaders headerCandidates
  if optStrTruthy cachedSheet && optStrTruthy cachedScoreCell &&
      optStrTruthy cachedScenarioCell then
    match cachedSheet, cachedScoreCell, cachedScenarioCell with
    | some cs, some csc, some ccell =>
      match getSheetValues env cs with
      | .error e => .error e
      | .ok cachedValues =>
        if scenarioCellMatches cachedValues ccell scenarioKey &&
            scoreCellMatches cachedValues csc headers then
          .ok ⟨cs, csc, ccell, [cs], false⟩
        else
          -- cached worksheet stays in the client cache: it is already fetched
          resolveMainScan env scenarioNorm scenarioLetters headers worksheetFilter
            scenarioName [cs]
    | _, _, _ =>
      -- unreachable: truthiness forces all three to be `some`
      resolveMainScan env scenarioNorm scenarioLetters headers worksheetFilter
        scenarioName []
  else
    resolveMainScan env scenarioNorm scenarioLetters headers worksheetFilter
      scenarioName []
where
  /-- The enumerate-and-scan tail of `resolve_target_cell` (lines 57-126). -/
  resolveMainScan (env : SheetEnv) (norm letters : String) (headers : List String)
      (worksheetFilter : Option (List String)) (scenarioName : String)
      (fetched0 : List String) : Except String ResolveOut :=
    let titles := env.sheets.map Prod.fst
    let allowed : Option (List String) :=
      match worksheetFilter with
      | some l => if l.isEmpty then none else some (l.map pyStrip)
      | none => none
    match resolveScanSheets env norm letters headers allowed titles none fetched0 with
    | .error e => .error e
    | .ok (some b, fetched) => .ok ⟨b.title, b.scoreCell, b.scenarioCell, fetched, true⟩
    | .ok (none, _) =>
      .error ("Could not locate scenario " ++ scenarioName ++
        " or an update column in the Google Sheet.")

/-! ## Numeric parsing and comparison -/

/-- Subtraction on ℚ, written with `mkRat` so that closed instances reduce
inside the kernel (the library operation is `@[irreducible]`); `rSub_eq`
below shows it agrees with `a - b`. -/
def rSub (a b : ℚ) : ℚ := mkRat (a.num * b.den - b.num * a.den) (a.den * b.den)

/-- Multiplication on ℚ via `mkRat`; `rMul_eq` shows it is `a * b`. -/
def rMul (a b : ℚ) : ℚ := mkRat (a.num * b.num) (a.den * b.den)

/-- Absolute value on ℚ; `rAbs_eq` shows it is `|a|`. -/
def rAbs (a : ℚ) : ℚ := if a < 0 then -a else a

/-- Model of Python `float(s)` on finite decimal literals: optional sign,
integer and/or fractional digits, optional exponent; surrounding whitespace
is handled by the caller (`pyFloat?`).  The value
`sign * (int.frac) * 10^exp` is assembled directly with `mkRat`.
(Specials such as inf/nan and underscore separators are not modelled; no
claim depends on them.) -/
def pyFloatChars (l : List Char) : Option ℚ :=
  let signSplit : Int × List Char :=
    match l with
    | '+' :: r => (1, r)
    | '-' :: r => (-1, r)
    | r => (1, r)
  let sgn := signSplit.1
  let intSplit := signSplit.2.span Char.isDigit
  let ip := intSplit.1
  let fracSplit : List Char × List Char :=
    match intSplit.2 with
    | '.' :: r => r.span Char.isDigit
    | r => ([], r)
  let fp := fracSplit.1
  if ip.isEmpty && fp.isEmpty then none
  else
    -- mantissa numerator over denominator 10^(number of fractional digits)
    let mantNum : Int := sgn * (digitsVal ip * 10 ^ fp.length + digitsVal fp)
    let mantDen : Nat := 10 ^ fp.length
    match fracSplit.2 with
    | [] => some (mkRat mantNum mantDen)
    | e :: r =>
      if e == 'e' || e == 'E' then
        let expNeg : Bool × List Char :=
          match r with
          | '+' :: rr => (false, rr)
          | '-' :: rr => (true, rr)
          | rr => (false, rr)
        let expSplit := expNeg.2.span Char.isDigit
        if expSplit.1.isEmpty || !expSplit.2.isEmpty then none
        else
          let ev := digitsVal expSplit.1
          if expNeg.1 then some (mkRat mantNum (mantDen * 10 ^ ev))
          else some (mkRat (mantNum * 10 ^ ev) mantDen)
      else none

/-- Model of Python `float(s)`; `none` models `ValueError`. -/
def pyFloat? (s : String) : Option ℚ :=
  pyFloatChars (pyStrip s).data

/-- Model of `math.isclose(a, b, rel_tol=1e-6, abs_tol=1e-6)`:
`abs(a-b) <= max(rel_tol * max(abs(a), abs(b)), abs_tol)`. -/
def pyIsClose (a b : ℚ) : Bool :=
  rAbs (rSub a b) ≤ max (rMul (mkRat 1 1000000) (max (rAbs a) (rAbs b))) (mkRat 1 1000000)

/-- google_client.GoogleSheetsClient.get_numeric_cell. -/
def getNumericCell (env : SheetEnv) (worksheet cellRef : String) :
    Except String (Option ℚ) :=
  match getSheetValues env worksheet with
  | .error e => .error e
  | .ok values =>
    match cellToIndexes cellRef with
    | none => .ok none
    | some (rowIdx, colIdx) =>
      match values.get? rowIdx with
      | none => .ok none
      | some row =>
        match row.get? colIdx with
        | none => .ok none
        | some (.num q) => .ok (some q)
        | some (.str s) =>
          let cleaned := pyStrip ⟨s.data.filter (fun c => c ≠ ',')⟩
          if cleaned.isEmpty then .ok none
          else .ok (pyFloatChars cleaned.data)

/-! ## Mirror-cell detection -/

/-- The header set of `find_mirror_cells`
(`{item.strip().lower() for item in header_candidates if item}` plus
"high score"); only membership is used, so a list suffices. -/
def mirrorHeaderSet (headerCandidates : List String) : List String :=
  "high score" :: (headerCandidates.filter (fun i => !i.isEmpty)).map pyKey

/-- `not isinstance(neighbour, str) or not neighbour.strip()`. -/
def cellBlank : Cell → Bool
  | .str s => (pyStrip s).isEmpty
  | .num _ => true

/-- `isinstance(v, str) and v.strip().lower() == "progress"`. -/
def cellIsProgress : Cell → Bool
  | .str s => pyKey s == "progress"
  | .num _ => false

/-- The header loop of `find_mirror_cells` (google_client.py lines 267-288):
scan the first 20 rows; at the first row that is long enough and holds a
header-set string at the score column, decide on the blank-neighbour /
"Progress" pattern and stop (the loop breaks whether or not it appends). -/
def mirrorHeaderScan (scoreCol : Nat) (hset : List String) : Grid → List Nat
  | [] => []
  | row :: rest =>
    if scoreCol ≤ row.length then
      match row.get? (scoreCol - 1) with
      | some (.str s) =>
        if hset.contains (pyKey s) then
          let neighbour := (row.get? scoreCol).getD (.str "")
          let progressCandidate := (row.get? (scoreCol + 1)).getD (.str "")
          if cellBlank neighbour && cellIsProgress progressCandidate then
            [scoreCol + 1]
          else []
        else mirrorHeaderScan scoreCol hset rest
      | _ => mirrorHeaderScan scoreCol hset rest
    else mirrorHeaderScan scoreCol hset rest

/-- google_client.GoogleSheetsClient.find_mirror_cells.  The source binds
`row` only under `if row_idx < len(values):` (line 291) but reads it
unconditionally on line 293, so when the score row is beyond the grid the
function raises `UnboundLocalError`; that path is the `.error` branch. -/
def findMirrorCells (env : SheetEnv) (worksheet scoreCell : String)
    (headerCandidates : List String) : Except String (List String) :=
  match getSheetValues env worksheet with
  | .error e => .error e
  | .ok values =>
    match cellToIndexes scoreCell with
    | none => .ok []
    | some (rowIdx, colIdx) =>
      let scoreCol := colIdx + 1
      let hset := mirrorHeaderSet headerCandidates
      let mirrors := mirrorHeaderScan scoreCol hset (values.take 20)
      match values.get? rowIdx with
      | none => .error "UnboundLocalError: row referenced before assignment"
      | some row =>
        let mirrors' :=
          if colIdx + 1 < row.length &&
              ((row.get? colIdx).getD (.str "")) == ((row.get? (colIdx + 1)).getD (.str "")) then
            if mirrors.contains (scoreCol + 1) then mirrors else mirrors ++ [scoreCol + 1]
          else mirrors
        .ok (mirrors'.map (fun c => columnLetter c ++ toString (rowIdx + 1)))

/-! ## stats.py -/

/-- stats.ScenarioRun (the source file is identified by its path string). -/
structure ScenarioRun where
  scenario : String
  score : ℚ
  sourceFile : String
  deriving DecidableEq, Repr

/-- Truthiness of the `scenario` accumulator (`if not scenario`, `if scenario`):
`None` and the empty string are falsy. -/
def scenarioTruthy : Option String → Bool
  | some s => !s.isEmpty
  | none => false

/-- The row loop of `parse_stats_file` over the CSV rows, carrying the
`scenario` and `score` accumulators; an unparsable "Score:" value raises
immediately (`_try_float`), and the loop breaks as soon as both fields are
filled with a truthy scenario. -/
def parseStatsLoop : List (List String) → Option String → Option ℚ →
    Except String (Option String × Option ℚ)
  | [], scenario, score => .ok (scenario, score)
  | row :: rest, scenario, score =>
    match row with
    | [] => parseStatsLoop rest scenario score
    | k :: _ =>
      let key := pyStrip k
      if key.isEmpty then parseStatsLoop rest scenario score
      else
        let scenario' :=
          if key == "Scenario:" && row.length > 1 then
            some (pyStrip ((row.get? 1).getD ""))
          else scenario
        if key == "Score:" && row.length > 1 then
          match pyFloat? ((row.get? 1).getD "") with
          | none => .error "Could not parse score value as float"
          | some q =>
            if scenarioTruthy scenario' then .ok (scenario', some q)
            else parseStatsLoop rest scenario' (some q)
        else
          if scenarioTruthy scenario' && score.isSome then .ok (scenario', score)
          else parseStatsLoop rest scenario' score

/-- stats.parse_stats_file on the CSV rows of a readable file (the
file-system error paths are outside the embedding).  `path` only names the
run's source file. -/
def parseStatsFile (path : String) (rows : List (List String)) :
    Except String ScenarioRun :=
  match parseStatsLoop rows none none with
  | .error e => .error e
  | .ok (scenario, score) =>
    if !scenarioTruthy scenario then .error "No Scenario: entry found"
    else
      match score with
      | none => .error "No Score: entry found"
      | some q => .ok ⟨(scenario.getD ""), q, path⟩

/-! ## state.py -/

/-- state.ScenarioState. -/
structure ScenarioState where
  bestScore : Option ℚ := none
  worksheet : Option String := none
  scoreCell : Option String := none
  scenarioCell : Option String := none
  deriving DecidableEq, Repr

/-- state.AppState; the `scenarios` dict is an insertion-ordered association
list, as Python dicts are. -/
structure AppState where
  scenarios : List (String × ScenarioState) := []
  processedFiles : List String := []
  deriving DecidableEq, Repr

/-- state.AppState.scenario_entry: look up the entry, inserting a fresh one
when absent; returns the entry together with the state that now contains it. -/
def scenarioEntry (st : AppState) (name : String) : ScenarioState × AppState :=
  match st.scenarios.find? (fun p => p.1 == name) with
  | some p => (p.2, st)
  | none => ({}, { st with scenarios := st.scenarios ++ [(name, {})] })

/-- Store an updated entry back into the scenarios map (the source mutates
the entry object in place). -/
def setScenario (st : AppState) (name : String) (entry : ScenarioState) : AppState :=
  { st with
    scenarios := st.scenarios.map (fun p => if p.1 == name then (p.1, entry) else p) }

/-- JSON values, for the persisted-state layout read by `load_state`. -/
inductive Json
  | null
  | bool (b : Bool)
  | num (q : ℚ)
  | str (s : String)
  | arr (items : List Json)
  | obj (fields : List (String × Json))

/-- `raw.get(key)` on a JSON object (the layout guarantees an object). -/
def jsonGet : Json → String → Option Json
  | .obj fields, key =>
    match fields.find? (fun p => p.1 == key) with
    | some p => some p.2
    | none => none
  | _, _ => none

/-- Model of Python `str(value)` on JSON values.  The exact rendering of
non-string values is irrelevant to every property proved below; strings map
to themselves and the other constructors to a deterministic text. -/
def pyStr : Json → String
  | .str s => s
  | .num q => toString q
  | .bool b => if b then "True" else "False"
  | .null => "None"
  | .arr _ => "<list>"
  | .obj _ => "<dict>"

/-- state._optional_str. -/
def optionalStr : Option Json → Option String
  | none => none
  | some .null => none
  | some v =>
    let text := pyStrip (pyStr v)
    if text.isEmpty then none else some text

/-- state._to_optional_float (`float(value)`; `TypeError`/`ValueError`
become `None`; note `float(True) == 1.0`). -/
def toOptionalFloat : Option Json → Option ℚ
  | none => none
  | some .null => none
  | some (.num q) => some q
  | some (.bool b) => some (if b then 1 else 0)
  | some (.str s) => pyFloat? s
  | some (.arr _) => none
  | some (.obj _) => none

/-- The per-scenario reconstruction inside `load_state` (state.py lines
46-54): keep dict-valued entries, defaulting each field through
`_optional_str` / `_to_optional_float`. -/
def loadScenarios : List (String × Json) → List (String × ScenarioState)
  | [] => []
  | (name, data) :: rest =>
    match data with
    | .obj _ =>
      (name,
        { bestScore := toOptionalFloat (jsonGet data "best_score")
          worksheet := optionalStr (jsonGet data "worksheet")
          scoreCell := optionalStr (jsonGet data "score_cell")
          scenarioCell := optionalStr (jsonGet data "scenario_cell") }) ::
        loadScenarios rest
    | _ => loadScenarios rest

/-- Python `lst[-n:]`. -/
def pyTakeLast (n : Nat) (l : List String) : List String :=
  l.drop (l.length - n)

/-- The legacy fallback of `load_state` (state.py lines 60-67): when no
top-level `processed_files` list was found, collect per-scenario
`processed_files` lists. -/
def legacyProcessed : List (String × Json) → List String
  | [] => []
  | (_, entry) :: rest =>
    (match jsonGet entry "processed_files" with
     | some (.arr files) => files.map pyStr
     | _ => []) ++ legacyProcessed rest

/-- state.load_state on the parsed JSON of an existing state file. -/
def loadState (raw : Json) : AppState :=
  let processedFiles : List Json :=
    match jsonGet raw "processed_files" with
    | some (.arr l) => l
    | _ => []
  let scenariosRaw := jsonGet raw "scenarios"
  let scenarios :=
    match scenariosRaw with
    | some (.obj fields) => loadScenarios fields
    | _ => []
  let processedFiles' : List String :=
    if processedFiles.isEmpty then
      match scenariosRaw with
      | some (.obj fields) =>
        let collected := legacyProcessed fields
        if collected.isEmpty then [] else pyTakeLast 500 collected
      | _ => []
    else processedFiles.map pyStr
  { scenarios := scenarios, processedFiles := processedFiles' }

/-! ## uploader.py -/

/-- One `update_cell` call, in structured form: the source passes the range
string built from the worksheet title and the cell reference. -/
structure Write where
  worksheet : String
  cell : String
  value : ℚ
  deriving DecidableEq, Repr

/-- A remote client interaction, at method granularity. -/
inductive ClientOp
  | resolveCall
  | numRead (worksheet cell : String)
  | mirrorScan (worksheet : String)
  | cellWrite (w : Write)
  deriving DecidableEq, Repr

/-- uploader._collect_runs, over the stats files (path with parsed CSV rows)
in modification-time order.  `paths` doubles as the `processed_set`: entries
are appended exactly when absent, keeping list and set in sync with the
source. -/
def collectRunsGo (skipProcessed : Bool) :
    List (String × List (List String)) → List String →
    List ScenarioRun × List String
  | [], paths => ([], paths)
  | (path, rows) :: rest, paths =>
    if skipProcessed && paths.contains path then
      collectRunsGo skipProcessed rest paths
    else
      let paths' := if paths.contains path then paths else paths ++ [path]
      let out := collectRunsGo skipProcessed rest paths'
      match parseStatsFile path rows with
      | .ok run => (run :: out.1, out.2)
      | .error _ => out

/-- uploader._collect_runs. -/
def collectRuns (files : List (String × List (List String)))
    (processed : List String) (skipProcessed : Bool) :
    List ScenarioRun × List String :=
  collectRunsGo skipProcessed files processed

/-- `is_new_personal_best = current_best is None or run.score > current_best`. -/
def isNewPersonalBest (entry : ScenarioState) (run : ScenarioRun) : Bool :=
  match entry.bestScore with
  | none => true
  | some b => run.score > b

/-- `target_value` as computed on uploader.py lines 64-68 (never `None`, so
the `if target_value is None: continue` on line 70 is dead code). -/
def targetValue (entry : ScenarioState) (run : ScenarioRun) : ℚ :=
  if isNewPersonalBest entry run then run.score
  else
    match entry.bestScore with
    | some b => b
    | none => run.score

/-- Result of processing one run (one iteration of the loop in
`process_once`). -/
structure StepOut where
  entry : ScenarioState
  writes : List Write
  ops : List ClientOp
  updated : Bool
  deriving DecidableEq, Repr

/-- One iteration of the run loop of `process_once` (uploader.py lines
40-107) for a fresh client.  A `GoogleClientError` from resolution is caught
and skips the run; errors from `get_numeric_cell` or `find_mirror_cells`
propagate (the source only wraps the resolve call in try/except). -/
def runStep (env : SheetEnv) (headerCandidates : List String)
    (worksheetFilter : Option (List String)) (run : ScenarioRun)
    (entry : ScenarioState) : Except String StepOut :=
  match resolveTargetCell env run.scenario headerCandidates worksheetFilter
      entry.worksheet entry.scoreCell entry.scenarioCell with
  | .error _ => .ok ⟨entry, [], [.resolveCall], false⟩
  | .ok r =>
    let entry1 := { entry with
      worksheet := some r.worksheet
      scoreCell := some r.scoreCell
      scenarioCell := some r.scenarioCell }
    let newBest := isNewPersonalBest entry run
    let target := targetValue entry run
    let entry2 := if newBest then { entry1 with bestScore := some run.score } else entry1
    match getNumericCell env r.worksheet r.scoreCell with
    | .error e => .error e
    | .ok sheetValue =>
      let ops0 : List ClientOp := [.resolveCall, .numRead r.worksheet r.scoreCell]
      if (match sheetValue with
          | some v => pyIsClose v target
          | none => false) && !newBest then
        .ok ⟨entry2, [], ops0, false⟩
      else
        match findMirrorCells env r.worksheet r.scoreCell headerCandidates with
        | .error e => .error e
        | .ok mirrorCells =>
          let primary : Write := ⟨r.worksheet, r.scoreCell, target⟩
          let extra := mirrorCells.map (fun c => (⟨r.worksheet, c, target⟩ : Write))
          let writes := primary :: extra
          .ok ⟨entry2, writes,
            ops0 ++ [.mirrorScan r.worksheet] ++ writes.map .cellWrite, true⟩

/-- Result of `process_once`: the return flag, the state handed to
`save_state`, and the remote interactions performed. -/
structure PassResult where
  updated : Bool
  state : AppState
  writes : List Write
  ops : List ClientOp
  deriving DecidableEq, Repr

/-- The run loop of `process_once`, threading the state through
`scenario_entry` and writing each updated entry back. -/
def processRuns (env : SheetEnv) (headerCandidates : List String)
    (worksheetFilter : Option (List String)) :
    List ScenarioRun → AppState → Bool → List Write → List ClientOp →
    Except String (Bool × AppState × List Write × List ClientOp)
  | [], st, updated, writes, ops => .ok (updated, st, writes, ops)
  | run :: rest, st, updated, writes, ops =>
    let entrySt := scenarioEntry st run.scenario
    match runStep env headerCandidates worksheetFilter run entrySt.1 with
    | .error e => .error e
    | .ok step =>
      processRuns env headerCandidates worksheetFilter rest
        (setScenario entrySt.2 run.scenario step.entry)
        (updated || step.updated) (writes ++ step.writes) (ops ++ step.ops)

/-- uploader.process_once for a fresh client, starting from the loaded state
and the discovered stats files (in modification-time order).  The returned
state is the one passed to `save_state`. -/
def processOnce (env : SheetEnv) (headerCandidates : List String)
    (worksheetFilter : Option (List String)) (state : AppState)
    (files : List (String × List (List String))) (skipProcessed : Bool) :
    Except String PassResult :=
  let collected := collectRuns files state.processedFiles skipProcessed
  let newRuns := collected.1
  let processedPaths := collected.2
  if newRuns.isEmpty then
    .ok ⟨false, { state with processedFiles := pyTakeLast 500 processedPaths }, [], []⟩
  else
    match processRuns env headerCandidates worksheetFilter newRuns state false [] [] with
    | .error e => .error e
    | .ok (updated, st, writes, ops) =>
      .ok ⟨updated, { st with processedFiles := pyTakeLast 500 processedPaths },
        writes, ops⟩

/-- Apply one remote write to the spreadsheet model (in-range cells only,
which covers every trace considered here). -/
def applyWrite (env : SheetEnv) (w : Write) : SheetEnv :=
  ⟨env.sheets.map (fun p =>
    if p.1 == w.worksheet then
      match cellToIndexes w.cell with
      | some (rowIdx, colIdx) =>
        match p.2.get? rowIdx with
        | some row => (p.1, p.2.set rowIdx (row.set colIdx (.num w.value)))
        | none => p
      | none => p
    else p)⟩

/-- Apply a pass's writes to the spreadsheet model in order. -/
def applyWrites (env : SheetEnv) (ws : List Write) : SheetEnv :=
  ws.foldl applyWrite env

/-! ## Bridging lemmas for the `mkRat`-based arithmetic -/

theorem rSub_eq (a b : ℚ) : rSub a b = a - b := by
  have hb : ((b.den : ℚ)) ≠ 0 := by
    exact_mod_cast (Nat.cast_ne_zero).mpr b.den_nz
  have ha : ((a.den : ℚ)) ≠ 0 := by
    exact_mod_cast (Nat.cast_ne_zero).mpr a.den_nz
  rw [rSub, Rat.mkRat_eq_div]
  conv_rhs => rw [← Rat.num_div_den a, ← Rat.num_div_den b]
  rw [div_sub_div _ _ ha hb]
  push_cast
  ring_nf

theorem rMul_eq (a b : ℚ) : rMul a b = a * b := by
  have hb : ((b.den : ℚ)) ≠ 0 := by
    exact_mod_cast (Nat.cast_ne_zero).mpr b.den_nz
  have ha : ((a.den : ℚ)) ≠ 0 := by
    exact_mod_cast (Nat.cast_ne_zero).mpr a.den_nz
  rw [rMul, Rat.mkRat_eq_div]
  conv_rhs => rw [← Rat.num_div_den a, ← Rat.num_div_den b]
  rw [div_mul_div_comm]
  push_cast
  ring_nf

theorem rAbs_eq (a : ℚ) : rAbs a = |a| := by
  rw [rAbs]
  split
  · rw [abs_of_neg (by assumption)]
  · rw [abs_of_nonneg (le_of_not_lt (by assumption))]

/-- `pyIsClose` really is `math.isclose` with both tolerances `1e-6`. -/
theorem pyIsClose_eq (a b : ℚ) :
    pyIsClose a b = decide (|a - b| ≤ max ((1 / 1000000) * max |a| |b|) (1 / 1000000)) := by
  have h6 : (mkRat 1 1000000 : ℚ) = 1 / 1000000 := by
    rw [Rat.mkRat_eq_div]; norm_num
  rw [pyIsClose, rAbs_eq, rAbs_eq, rAbs_eq, rSub_eq, rMul_eq, h6]

/-! ## The all-or-nothing invariant on scenario entries -/

/-- The all-or-nothing invariant: if `score_cell` is set then `worksheet`
and `scenario_cell` are set as well. -/
def scenarioInv (e : ScenarioState) : Prop :=
  e.scoreCell ≠ none → (e.worksheet ≠ none ∧ e.scenarioCell ≠ none)

instance (e : ScenarioState) : Decidable (scenarioInv e) := by
  unfold scenarioInv; infer_instance

/-- The invariant on a whole state: every scenario entry satisfies it. -/
def stateInv (st : AppState) : Prop :=
  ∀ p ∈ st.scenarios, scenarioInv p.2

instance (st : AppState) : Decidable (stateInv st) := by
  unfold stateInv; infer_instance

theorem scenarioEntry_inv (st : AppState) (name : String) (h : stateInv st) :
    scenarioInv (scenarioEntry st name).1 ∧ stateInv (scenarioEntry st name).2 := by
  unfold scenarioEntry
  cases hf : st.scenarios.find? (fun p => p.1 == name) with
  | some p =>
    simp only [hf]
    exact ⟨h p (List.mem_of_find?_eq_some hf), h⟩
  | none =>
    simp only [hf]
    constructor
    · intro hc; exact absurd rfl hc
    · intro q hq
      simp only [List.mem_append, List.mem_singleton] at hq
      rcases hq with hq | hq
      · exact h q hq
      · subst hq; intro hc; exact absurd rfl hc

theorem setScenario_inv (st : AppState) (name : String) (e : ScenarioState)
    (h : stateInv st) (he : scenarioInv e) : stateInv (setScenario st name e) := by
  intro q hq
  simp only [setScenario, List.mem_map] at hq
  obtain ⟨p, hp, hpq⟩ := hq
  by_cases hn : p.1 == name
  · simp only [hn, if_pos] at hpq; subst hpq; exact he
  · simp only [hn, Bool.false_eq_true, if_neg, if_false] at hpq
    subst hpq; exact h p hp

theorem runStep_inv (env : SheetEnv) (headers : List String)
    (wsFilter : Option (List String)) (run : ScenarioRun) (entry : ScenarioState)
    (step : StepOut) (he : scenarioInv entry)
    (h : runStep env headers wsFilter run entry = .ok step) :
    scenarioInv step.entry := by
  unfold runStep at h
  split at h
  · -- resolve failed: entry unchanged
    injection h with h; subst h; exact he
  · -- resolve succeeded: all three cells are set
    dsimp only at h
    split at h
    · exact absurd h (by simp)
    · split at h
      · injection h with h; subst h
        intro _; constructor <;> (split <;> simp)
      · split at h
        · exact absurd h (by simp)
        · injection h with h; subst h
          intro _; constructor <;> (split <;> simp)

theorem processRuns_inv (env : SheetEnv) (headers : List String)
    (wsFilter : Option (List String)) :
    ∀ (runs : List ScenarioRun) (st : AppState) (updated : Bool)
      (writes : List Write) (ops : List ClientOp)
      (res : Bool × AppState × List Write × List ClientOp),
      stateInv st →
      processRuns env headers wsFilter runs st updated writes ops = .ok res →
      stateInv res.2.1
  | [], st, updated, writes, ops, res, h, hp => by
    unfold processRuns at hp
    injection hp with hp; subst hp; exact h
  | run :: rest, st, updated, writes, ops, res, h, hp => by
    unfold processRuns at hp
    obtain ⟨h1, h2⟩ := scenarioEntry_inv st run.scenario h
    dsimp only at hp
    split at hp
    · exact absurd hp (by simp)
    · rename_i step hstep
      exact processRuns_inv env headers wsFilter rest _ _ _ _ res
        (setScenario_inv _ _ _ h2 (runStep_inv env headers wsFilter run _ step h1 hstep))
        hp

/-! ## Mirror-scan characterization -/

/-- The break condition of the header loop in `find_mirror_cells`: the row
reaches the score column and holds a header-set string there. -/
def headerBreak (hset : List String) (colIdx : Nat) (row : List Cell) : Prop :=
  colIdx + 1 ≤ row.length ∧
    ∃ s, row.get? colIdx = some (.str s) ∧ hset.contains (pyKey s) = true

theorem mirrorHeaderScan_first_hit (hset : List String) (colIdx : Nat) :
    ∀ (rows : Grid) (i : Nat) (row : List Cell) (s : String),
      rows.get? i = some row →
      (∀ j hrow, j < i → rows.get? j = some hrow → ¬ headerBreak hset colIdx hrow) →
      colIdx + 1 ≤ row.length →
      row.get? colIdx = some (.str s) →
      hset.contains (pyKey s) = true →
      cellBlank ((row.get? (colIdx + 1)).getD (.str "")) = true →
      cellIsProgress ((row.get? (colIdx + 2)).getD (.str "")) = true →
      mirrorHeaderScan (colIdx + 1) hset rows = [colIdx + 2]
  | [], i, row, s, hget, _, _, _, _, _, _ => by simp at hget
  | r :: rest, 0, row, s, hget, hnb, hlen, hcell, hcont, hblank, hprog => by
    rw [List.get?_cons_zero] at hget
    injection hget with hget; subst hget
    unfold mirrorHeaderScan
    rw [if_pos hlen]
    have hidx : colIdx + 1 - 1 = colIdx := by omega
    rw [hidx, hcell]
    have hmem : pyKey s ∈ hset := by simpa using hcont
    simp only [List.get?_eq_getElem?] at hblank hprog
    simp [hmem, hblank, hprog]
  | r :: rest, j + 1, row, s, hget, hnb, hlen, hcell, hcont, hblank, hprog => by
    rw [List.get?_cons_succ] at hget
    have hrec : mirrorHeaderScan (colIdx + 1) hset rest = [colIdx + 2] :=
      mirrorHeaderScan_first_hit hset colIdx rest j row s hget
        (fun j' hrow hj hg => hnb (j' + 1) hrow (by omega) (by simpa using hg))
        hlen hcell hcont hblank hprog
    have hnb0 : ¬ headerBreak hset colIdx r :=
      hnb 0 r (by omega) (List.get?_cons_zero)
    unfold mirrorHeaderScan
    have hidx : colIdx + 1 - 1 = colIdx := by omega
    rw [hidx]
    by_cases h1 : colIdx + 1 ≤ r.length
    · rw [if_pos h1]
      cases hc : r.get? colIdx with
      | none => exact hrec
      | some cv =>
        cases cv with
        | num q => exact hrec
        | str t =>
          have hct : hset.contains (pyKey t) = false := by
            by_contra hcontra
            simp only [Bool.not_eq_false] at hcontra
            exact hnb0 ⟨h1, t, hc, hcontra⟩
          have hmem : ¬ (pyKey t ∈ hset) := by simpa using hct
          simp [hct, hmem, hrec]
    · rw [if_neg h1]
      exact hrec

/-! ## Claims -/

/-- C1.  The claim says an exact (trimmed, lower-cased) match of the scenario
name is returned as the label cell independently of fuzzy-fallback candidates
and that the search short-circuits.  The code does neither: the exact-match
branch of `resolve_target_cell` (google_client.py lines 92-99) assigns two
local variables that are never read and does not return, so exact matches
only participate through the fuzzy fallback, whose strict `diff <` update
keeps an earlier candidate of equal normalized-length difference.
First conjunct: on a single worksheet "S" whose grid holds the fuzzy cell
"close-range" at A1 and the unique exact match "close range" at A2 for
scenario "Close Range", the resolved label cell is A1, not A2.
Second conjunct: with the unique exact match in worksheet "S1", worksheet
"S2" is still fetched afterwards - no short-circuit. -/
theorem claim_C1_exact_match_is_not_privileged :
    resolveTargetCell ⟨[("S", [[.str "close-range"], [.str "close range"]])]⟩
        "Close Range" [] none none none none =
      .ok ⟨"S", "D1", "A1", ["S"], true⟩ ∧
    resolveTargetCell ⟨[("S1", [[.str "close range"]]), ("S2", [[.str "anything"]])]⟩
        "Close Range" [] none none none none =
      .ok ⟨"S1", "D1", "A1", ["S1", "S2"], true⟩ := by
  decide

/-- C8.  `find_mirror_cells` is not total: when the score cell's row number
exceeds the number of rows in the grid, the guard on google_client.py line
291 skips the assignment of `row`, and line 293 then reads the unbound local,
raising `UnboundLocalError` (the `.error` branch of the embedding).  Here the
grid has one row and the score cell is "A5". -/
theorem claim_C8_find_mirror_cells_raises_beyond_grid :
    findMirrorCells ⟨[("S", [[.str "x"]])]⟩ "S" "A5" [] =
      .error "UnboundLocalError: row referenced before assignment" := by
  decide

/-- C6 counterexample.  `load_state` does not enforce the all-or-nothing
invariant: a state file readable under the persisted-state layout whose
scenarios entry sets `score_cell` but omits `worksheet` and `scenario_cell`
loads into a `ScenarioState` that violates the invariant. -/
theorem claim_C6_counterexample :
    ¬ stateInv (loadState (Json.obj [("scenarios",
        Json.obj [("X", Json.obj [("score_cell", Json.str "B2")])])])) := by
  decide

/-- C6 amended.  Scenario entries produced during a pass do satisfy the
all-or-nothing invariant: `process_once` assigns the worksheet, score cell
and label cell together (uploader.py lines 58-60) and otherwise leaves
entries alone, so the invariant is preserved from the loaded state to the
state handed to `save_state`.  (`load_state` itself does not enforce it for
arbitrary readable files, per the counterexample.) -/
theorem claim_C6_process_once_preserves_invariant (env : SheetEnv)
    (headers : List String) (wsFilter : Option (List String)) (state : AppState)
    (files : List (String × List (List String))) (skipProcessed : Bool)
    (out : PassResult) (hinv : stateInv state)
    (h : processOnce env headers wsFilter state files skipProcessed = .ok out) :
    stateInv out.state := by
  unfold processOnce at h
  dsimp only at h
  split at h
  · injection h with h; subst h
    simpa [stateInv] using hinv
  · split at h
    · exact absurd h (by simp)
    · rename_i upd st2 wr op hres
      injection h with h; subst h
      have := processRuns_inv env headers wsFilter _ _ _ _ _ (upd, st2, wr, op) hinv hres
      simpa [stateInv] using this

/-- C6 witness: the preservation theorem applied to a concrete pass (one new
run, score 120, resolved on a one-worksheet spreadsheet). -/
theorem claim_C6_witness :
    stateInv ((⟨true,
      ⟨[("Close Range", ⟨some 120, some "Sheet1", some "B2", some "A2"⟩)], ["f1"]⟩,
      [⟨"Sheet1", "B2", 120⟩],
      [.resolveCall, .numRead "Sheet1" "B2", .mirrorScan "Sheet1",
       .cellWrite ⟨"Sheet1", "B2", 120⟩]⟩ : PassResult)).state :=
  claim_C6_process_once_preserves_invariant
    ⟨[("Sheet1", [[.str "Scenario", .str "Your Score"], [.str "Close Range", .str ""]])]⟩
    ["Your Score"] none ⟨[], []⟩
    [("f1", [["Scenario:", "Close Range"], ["Score:", "120"]])] true
    ⟨true,
      ⟨[("Close Range", ⟨some 120, some "Sheet1", some "B2", some "A2"⟩)], ["f1"]⟩,
      [⟨"Sheet1", "B2", 120⟩],
      [.resolveCall, .numRead "Sheet1" "B2", .mirrorScan "Sheet1",
       .cellWrite ⟨"Sheet1", "B2", 120⟩]⟩
    (by decide) (by decide)

/-- C7 counterexample.  The claim quantifies over "some row among the first
20" with the header pattern, but the header loop of `find_mirror_cells`
breaks at the FIRST row whose score-column cell is a header-set string,
whether or not the blank/"Progress" pattern holds there.  With score cell
"A1" on the grid [["High Score"], ["High Score", "", "Progress"]], row 2
satisfies the claimed condition (header candidate at the score column, blank
neighbour, then "Progress"), yet the scan breaks at row 1 and no mirror is
returned: the result is [], not a list containing "B1". -/
theorem claim_C7_counterexample :
    findMirrorCells ⟨[("S", [[.str "High Score"],
        [.str "High Score", .str "", .str "Progress"]])]⟩ "S" "A1" [] =
      .ok [] := by
  decide

/-- C7 amended.  If the FIRST row among the first 20 whose score-column cell
is a header-set string (rows too short to reach the score column are
skipped) also has a blank-or-absent cell in the following column and
"Progress" in the column after that, and the score row lies inside the grid
(so that the unbound-`row` path is not taken), then `find_mirror_cells`
includes the cell at (score column + 1, score row).  Second conjunct: for
a header row ["High Score", "", "Progress"] starting at the score column and
a data row whose neighbour cell differs from the score cell, exactly that
single cell is returned. -/
theorem claim_C7_first_header_row_mirror :
    (∀ (env : SheetEnv) (ws scoreCell : String) (grid : Grid)
        (cands : List String) (rowIdx colIdx i : Nat) (row : List Cell) (s : String),
      getSheetValues env ws = .ok grid →
      cellToIndexes scoreCell = some (rowIdx, colIdx) →
      rowIdx < grid.length →
      (grid.take 20).get? i = some row →
      (∀ j hrow, j < i → (grid.take 20).get? j = some hrow →
        ¬ headerBreak (mirrorHeaderSet cands) colIdx hrow) →
      colIdx + 1 ≤ row.length →
      row.get? colIdx = some (.str s) →
      (mirrorHeaderSet cands).contains (pyKey s) = true →
      cellBlank ((row.get? (colIdx + 1)).getD (.str "")) = true →
      cellIsProgress ((row.get? (colIdx + 2)).getD (.str "")) = true →
      ∃ l, findMirrorCells env ws scoreCell cands = .ok l ∧
        (columnLetter (colIdx + 2) ++ toString (rowIdx + 1)) ∈ l) ∧
    findMirrorCells ⟨[("S", [[.str "X", .str "High Score", .str "", .str "Progress"],
        [.str "a", .num 5, .num 7, .str ""]])]⟩ "S" "B2" [] = .ok ["C2"] := by
  constructor
  · intro env ws scoreCell grid cands rowIdx colIdx i row s
      hgrid hcell hrow hget hnb hlen hcolcell hcont hblank hprog
    have hscan : mirrorHeaderScan (colIdx + 1) (mirrorHeaderSet cands) (grid.take 20) =
        [colIdx + 2] :=
      mirrorHeaderScan_first_hit (mirrorHeaderSet cands) colIdx (grid.take 20) i row s
        hget hnb hlen hcolcell hcont hblank hprog
    obtain ⟨drow, hdrow⟩ : ∃ drow, grid.get? rowIdx = some drow :=
      ⟨grid.get ⟨rowIdx, hrow⟩, List.get?_eq_get hrow⟩
    refine ⟨[columnLetter (colIdx + 2) ++ toString (rowIdx + 1)], ?_, by simp⟩
    unfold findMirrorCells
    rw [hgrid]
    dsimp only
    rw [hcell]
    dsimp only
    rw [hscan, hdrow]
    dsimp only
    split
    · simp
    · simp
  · decide

/-- C7 witness: the general conjunct applied to the concrete grid of the
second conjunct (first header row at index 0, score cell "B2"). -/
theorem claim_C7_witness :
    ∃ l, findMirrorCells ⟨[("S", [[.str "X", .str "High Score", .str "", .str "Progress"],
        [.str "a", .num 5, .num 7, .str ""]])]⟩ "S" "B2" [] = .ok l ∧
      (columnLetter 3 ++ toString 2) ∈ l :=
  claim_C7_first_header_row_mirror.1
    ⟨[("S", [[.str "X", .str "High Score", .str "", .str "Progress"],
        [.str "a", .num 5, .num 7, .str ""]])]⟩ "S" "B2"
    [[.str "X", .str "High Score", .str "", .str "Progress"],
      [.str "a", .num 5, .num 7, .str ""]]
    [] 1 1 0 [.str "X", .str "High Score", .str "", .str "Progress"] "High Score"
    (by decide) (by decide) (by decide) (by decide)
    (fun j hrow hj _ => absurd hj (Nat.not_lt_zero j))
    (by decide) (by decide) (by decide) (by decide) (by decide)

/-- C4.  The cached fast path: when all three cached values are present and,
on the fetched grid of the cached worksheet, the label cell still holds the
scenario name (condition (a), `_scenario_cell_matches`) and the score cell's
column passes the header/"Progress"-neighbour check over the first 200 rows
(condition (b), `_score_cell_matches`), `resolve_target_cell` returns exactly
the cached triple, fetches only the cached worksheet and never enumerates
the sheet list. -/
theorem claim_C4_cached_fast_path (env : SheetEnv) (scenarioName : String)
    (headerCandidates : List String) (wsFilter : Option (List String))
    (cs csc ccell : String) (grid : Grid)
    (h1 : cs ≠ "") (h2 : csc ≠ "") (h3 : ccell ≠ "")
    (hget : getSheetValues env cs = .ok grid)
    (hscen : scenarioCellMatches grid ccell (pyKey scenarioName) = true)
    (hscore : scoreCellMatches grid csc (resolveHeaders headerCandidates) = true) :
    resolveTargetCell env scenarioName headerCandidates wsFilter
      (some cs) (some csc) (some ccell) = .ok ⟨cs, csc, ccell, [cs], false⟩ := by
  have e1 : cs.isEmpty = false := by
    cases hcs : cs.isEmpty
    · rfl
    · exact absurd ((String.isEmpty_iff _).mp hcs) h1
  have e2 : csc.isEmpty = false := by
    cases hcs : csc.isEmpty
    · rfl
    · exact absurd ((String.isEmpty_iff _).mp hcs) h2
  have e3 : ccell.isEmpty = false := by
    cases hcs : ccell.isEmpty
    · rfl
    · exact absurd ((String.isEmpty_iff _).mp hcs) h3
  unfold resolveTargetCell
  simp only [optStrTruthy, e1, e2, e3, Bool.not_false, Bool.and_self, if_true]
  rw [hget]
  simp [hscen, hscore]

/-- C4 witness: a two-row worksheet "S" where the cached label cell A2 holds
the scenario "Aim" and the cached score cell A1 sits under the header
"Your Score". -/
theorem claim_C4_witness :
    resolveTargetCell ⟨[("S", [[.str "Your Score"], [.str "Aim"]])]⟩ "Aim"
      ["Your Score"] none (some "S") (some "A1") (some "A2") =
      .ok ⟨"S", "A1", "A2", ["S"], false⟩ :=
  claim_C4_cached_fast_path ⟨[("S", [[.str "Your Score"], [.str "Aim"]])]⟩ "Aim"
    ["Your Score"] none "S" "A1" "A2" [[.str "Your Score"], [.str "Aim"]]
    (by decide) (by decide) (by decide) (by decide) (by decide) (by decide)

/-- C2.  Monotonicity of `best_score`: once a best is recorded, a later run
with a strictly lower score leaves the stored best unchanged (uploader.py
lines 62-68 only assign `best_score` when `run.score` beats it) and every
write performed for that run (the primary score-cell write and any mirror
writes) carries the stored best, never the lower run score. -/
theorem claim_C2_best_score_monotone (env : SheetEnv) (headers : List String)
    (wsFilter : Option (List String)) (run : ScenarioRun) (entry : ScenarioState)
    (b : ℚ) (out : StepOut)
    (hbest : entry.bestScore = some b) (hlt : run.score < b)
    (hok : runStep env headers wsFilter run entry = .ok out) :
    out.entry.bestScore = some b ∧ ∀ w ∈ out.writes, w.value = b := by
  have hnb : isNewPersonalBest entry run = false := by
    unfold isNewPersonalBest
    rw [hbest]
    exact decide_eq_false (not_lt.mpr hlt.le)
  have htv : targetValue entry run = b := by
    unfold targetValue
    rw [hnb, hbest]
    simp
  unfold runStep at hok
  split at hok
  · -- resolve failed: nothing written, entry unchanged
    injection hok with hok; subst hok
    exact ⟨hbest, by simp⟩
  · dsimp only at hok
    simp only [hnb, htv, Bool.false_eq_true, if_false, if_neg] at hok
    split at hok
    · exact absurd hok (by simp)
    · split at hok
      · injection hok with hok; subst hok
        exact ⟨hbest, by simp⟩
      · split at hok
        · exact absurd hok (by simp)
        · injection hok with hok; subst hok
          refine ⟨hbest, ?_⟩
          intro w hw
          simp only [List.mem_cons, List.mem_map] at hw
          rcases hw with hw | ⟨c, _, hw⟩
          · subst hw; rfl
          · subst hw; rfl

/-- C2 witness: stored best 100, new run with score 50; the single write
performed carries 100. -/
theorem claim_C2_witness :
    (⟨⟨some 100, some "Sheet1", some "B2", some "A2"⟩,
      [⟨"Sheet1", "B2", 100⟩],
      [.resolveCall, .numRead "Sheet1" "B2", .mirrorScan "Sheet1",
       .cellWrite ⟨"Sheet1", "B2", 100⟩], true⟩ : StepOut).entry.bestScore = some 100 ∧
    ∀ w ∈ (⟨⟨some 100, some "Sheet1", some "B2", some "A2"⟩,
      [⟨"Sheet1", "B2", 100⟩],
      [.resolveCall, .numRead "Sheet1" "B2", .mirrorScan "Sheet1",
       .cellWrite ⟨"Sheet1", "B2", 100⟩], true⟩ : StepOut).writes, w.value = 100 :=
  claim_C2_best_score_monotone
    ⟨[("Sheet1", [[.str "Scenario", .str "Your Score"], [.str "Close Range", .num 120]])]⟩
    ["Your Score"] none ⟨"Close Range", 50, "f"⟩
    ⟨some 100, some "Sheet1", some "B2", some "A2"⟩ 100
    ⟨⟨some 100, some "Sheet1", some "B2", some "A2"⟩,
      [⟨"Sheet1", "B2", 100⟩],
      [.resolveCall, .numRead "Sheet1" "B2", .mirrorScan "Sheet1",
       .cellWrite ⟨"Sheet1", "B2", 100⟩], true⟩
    (by decide) (by decide) (by decide)

theorem collectRunsGo_all_processed :
    ∀ (files : List (String × List (List String))) (paths : List String),
      (∀ f ∈ files, paths.contains f.1 = true) →
      collectRunsGo true files paths = ([], paths)
  | [], paths, _ => rfl
  | (p, rows) :: rest, paths, h => by
    unfold collectRunsGo
    rw [h (p, rows) (List.mem_cons_self _ _)]
    simp only [Bool.true_and, if_true]
    exact collectRunsGo_all_processed rest paths (fun f hf => h f (List.mem_cons_of_mem _ hf))

theorem pyTakeLast_idem (l : List String) :
    pyTakeLast 500 (pyTakeLast 500 l) = pyTakeLast 500 l := by
  unfold pyTakeLast
  rw [List.length_drop]
  have h : l.length - (l.length - 500) - 500 = 0 := by omega
  rw [h, List.drop_zero]

/-- C5.  A pass in which every discovered stats file is already recorded as
processed (both in the loaded list and in its 500-entry trim, so that the
trimming cannot silently forget one of them): `_collect_runs` yields no runs,
so `process_once` performs no remote reads or writes (empty op log), returns
False, and persists the loaded state unchanged except for trimming
`processed_files` to its most recent 500 entries; running the same pass
again on the persisted state changes nothing further. -/
theorem claim_C5_no_new_results_idempotent (env : SheetEnv)
    (headers : List String) (wsFilter : Option (List String)) (state : AppState)
    (files : List (String × List (List String)))
    (h1 : ∀ f ∈ files, state.processedFiles.contains f.1 = true)
    (h2 : ∀ f ∈ files, (pyTakeLast 500 state.processedFiles).contains f.1 = true) :
    processOnce env headers wsFilter state files true =
      .ok ⟨false, { state with processedFiles := pyTakeLast 500 state.processedFiles },
        [], []⟩ ∧
    processOnce env headers wsFilter
        { state with processedFiles := pyTakeLast 500 state.processedFiles } files true =
      .ok ⟨false, { state with processedFiles := pyTakeLast 500 state.processedFiles },
        [], []⟩ := by
  constructor
  · unfold processOnce collectRuns
    rw [collectRunsGo_all_processed files state.processedFiles h1]
    simp
  · unfold processOnce collectRuns
    rw [collectRunsGo_all_processed files _ h2]
    simp [pyTakeLast_idem]

/-- C5 witness: one discovered file "f1" already recorded as processed. -/
theorem claim_C5_witness :
    processOnce (⟨[]⟩ : SheetEnv) [] none (⟨[], ["f1"]⟩ : AppState)
        [("f1", [["Scenario:", "X"]])] true =
      .ok ⟨false, ⟨[], ["f1"]⟩, [], []⟩ ∧
    processOnce (⟨[]⟩ : SheetEnv) [] none (⟨[], ["f1"]⟩ : AppState)
        [("f1", [["Scenario:", "X"]])] true =
      .ok ⟨false, ⟨[], ["f1"]⟩, [], []⟩ := by
  have h := claim_C5_no_new_results_idempotent ⟨[]⟩ [] none ⟨[], ["f1"]⟩
    [("f1", [["Scenario:", "X"]])] (by decide) (by decide)
  exact ⟨h.1, h.2⟩

/-! ## The "Close Range" three-pass trace (claim C3) -/

/-- The worksheet used by the C3 trace: a header row and the "Close Range"
data row with an initially empty score cell. -/
def crGrid : Grid := [[.str "Scenario", .str "Your Score"], [.str "Close Range", .str ""]]

/-- The remote spreadsheet before any pass. -/
def crEnv0 : SheetEnv := ⟨[("Sheet1", crGrid)]⟩

/-- The remote spreadsheet after the first pass wrote 120 to B2. -/
def crEnv1 : SheetEnv :=
  ⟨[("Sheet1", [[.str "Scenario", .str "Your Score"], [.str "Close Range", .num 120]])]⟩

/-- The remote spreadsheet after the third pass wrote 140 to B2. -/
def crEnv3 : SheetEnv :=
  ⟨[("Sheet1", [[.str "Scenario", .str "Your Score"], [.str "Close Range", .num 140]])]⟩

/-- A Kovaaks stats file for a "Close Range" run with the given score text. -/
def crRows (s : String) : List (List String) := [["Scenario:", "Close Range"], ["Score:", s]]

/-- The scenario entry shared by the later passes (best 120, cached triple). -/
def crEntry120 : ScenarioState := ⟨some 120, some "Sheet1", some "B2", some "A2"⟩

/-- The state persisted by the first pass. -/
def crState1 : AppState := ⟨[("Close Range", crEntry120)], ["f1"]⟩

/-- The state persisted by the second pass. -/
def crState2 : AppState := ⟨[("Close Range", crEntry120)], ["f1", "f2"]⟩

/-- The state persisted by the third pass. -/
def crState3 : AppState :=
  ⟨[("Close Range", ⟨some 140, some "Sheet1", some "B2", some "A2"⟩)], ["f1", "f2", "f3"]⟩

/-- C3.  First conjunct, the skip rule: for a processed run (resolution
succeeded), the primary score-cell write is skipped - no write at all is
issued - exactly when the current remote value at the resolved score cell is
numerically within the 1e-6 `math.isclose` tolerance of the target value and
the run is not a new personal best (uploader.py lines 73-78).
Remaining conjuncts, the concrete trace: scenario "Close Range" with scores
[120, 95, 140] across three passes (each pass a fresh `process_once` whose
writes are applied to the otherwise untouched sheet) performs exactly two
primary writes, 120 in pass one and 140 in pass three, no write in pass two,
and ends with the remote score cell holding 140. -/
theorem claim_C3_skip_rule_and_close_range_trace :
    (∀ (env : SheetEnv) (headers : List String) (wsFilter : Option (List String))
        (run : ScenarioRun) (entry : ScenarioState) (out : StepOut) (r : ResolveOut),
      resolveTargetCell env run.scenario headers wsFilter
          entry.worksheet entry.scoreCell entry.scenarioCell = .ok r →
      runStep env headers wsFilter run entry = .ok out →
      (out.writes = [] ↔
        ∃ v, getNumericCell env r.worksheet r.scoreCell = .ok (some v) ∧
          pyIsClose v (targetValue entry run) = true ∧
          isNewPersonalBest entry run = false)) ∧
    processOnce crEnv0 ["Your Score"] none ⟨[], []⟩ [("f1", crRows "120")] true =
      .ok ⟨true, crState1, [⟨"Sheet1", "B2", 120⟩],
        [.resolveCall, .numRead "Sheet1" "B2", .mirrorScan "Sheet1",
         .cellWrite ⟨"Sheet1", "B2", 120⟩]⟩ ∧
    applyWrites crEnv0 [⟨"Sheet1", "B2", 120⟩] = crEnv1 ∧
    processOnce crEnv1 ["Your Score"] none crState1
        [("f1", crRows "120"), ("f2", crRows "95")] true =
      .ok ⟨false, crState2, [], [.resolveCall, .numRead "Sheet1" "B2"]⟩ ∧
    processOnce crEnv1 ["Your Score"] none crState2
        [("f1", crRows "120"), ("f2", crRows "95"), ("f3", crRows "140")] true =
      .ok ⟨true, crState3, [⟨"Sheet1", "B2", 140⟩],
        [.resolveCall, .numRead "Sheet1" "B2", .mirrorScan "Sheet1",
         .cellWrite ⟨"Sheet1", "B2", 140⟩]⟩ ∧
    applyWrites crEnv1 [⟨"Sheet1", "B2", 140⟩] = crEnv3 ∧
    getNumericCell crEnv3 "Sheet1" "B2" = .ok (some 140) := by
  refine ⟨?_, by decide, by decide, by decide, by decide, by decide, by decide⟩
  intro env headers wsFilter run entry out r hres hok
  unfold runStep at hok
  rw [hres] at hok
  dsimp only at hok
  cases hnum : getNumericCell env r.worksheet r.scoreCell with
  | error e => rw [hnum] at hok; exact absurd hok (by simp)
  | ok sheetValue =>
    rw [hnum] at hok
    dsimp only at hok
    split at hok
    · -- skip branch: no write issued
      rename_i hcond
      injection hok with hok; subst hok
      simp only [true_iff]
      cases sheetValue with
      | none => simp at hcond
      | some v =>
        simp only [Bool.and_eq_true, Bool.not_eq_true'] at hcond
        exact ⟨v, rfl, hcond.1, hcond.2⟩
    · -- write branch: the primary write is issued
      rename_i hcond
      split at hok
      · exact absurd hok (by simp)
      · injection hok with hok; subst hok
        refine ⟨fun hcontra => absurd hcontra (by simp), ?_⟩
        rintro ⟨v, hv, hclose, hnb⟩
        injection hv with hv; subst hv
        simp [hclose, hnb] at hcond

/-- C3 witness: the skip rule applied to the second pass of the trace
(remote already 120, run score 95, not a new best: no write). -/
theorem claim_C3_witness :
    (⟨crEntry120, [], [.resolveCall, .numRead "Sheet1" "B2"], false⟩ : StepOut).writes = [] ↔
    ∃ v, getNumericCell crEnv1 "Sheet1" "B2" = .ok (some v) ∧
      pyIsClose v (targetValue crEntry120 ⟨"Close Range", 95, "f2"⟩) = true ∧
      isNewPersonalBest crEntry120 ⟨"Close Range", 95, "f2"⟩ = false :=
  claim_C3_skip_rule_and_close_range_trace.1 crEnv1 ["Your Score"] none
    ⟨"Close Range", 95, "f2"⟩ crEntry120
    ⟨crEntry120, [], [.resolveCall, .numRead "Sheet1" "B2"], false⟩
    ⟨"Sheet1", "B2", "A2", ["Sheet1"], false⟩
    (by decide) (by decide)

/-! ## Column-letter round trip (claim C9) -/

theorem char_le_iff_toNat {a b : Char} : a ≤ b ↔ a.toNat ≤ b.toNat := Iff.rfl

theorem uint32_le_iff {a b : UInt32} : a ≤ b ↔ a.toNat ≤ b.toNat := Iff.rfl

theorem isUpper_of_range {c : Char} (h1 : 65 ≤ c.toNat) (h2 : c.toNat ≤ 90) :
    c.isUpper = true := by
  have e1 : (65 : UInt32) ≤ c.val := uint32_le_iff.mpr h1
  have e2 : c.val ≤ (90 : UInt32) := uint32_le_iff.mpr h2
  simp [Char.isUpper, e1, e2]

theorem isAlpha_of_upper_range {c : Char} (h1 : 65 ≤ c.toNat) (h2 : c.toNat ≤ 90) :
    c.isAlpha = true := by
  simp [Char.isAlpha, isUpper_of_range h1 h2]

theorem isDigit_range {c : Char} (h : c.isDigit = true) :
    48 ≤ c.toNat ∧ c.toNat ≤ 57 := by
  simp only [Char.isDigit, Bool.and_eq_true, decide_eq_true_eq] at h
  exact ⟨uint32_le_iff.mp h.1, uint32_le_iff.mp h.2⟩

theorem isDigit_of_range {c : Char} (h1 : 48 ≤ c.toNat) (h2 : c.toNat ≤ 57) :
    c.isDigit = true := by
  have e1 : (48 : UInt32) ≤ c.val := uint32_le_iff.mpr h1
  have e2 : c.val ≤ (57 : UInt32) := uint32_le_iff.mpr h2
  simp [Char.isDigit, e1, e2]

theorem not_digit_of_upper_range {c : Char} (h1 : 65 ≤ c.toNat) (h2 : c.toNat ≤ 90) :
    c.isDigit = false := by
  cases hd : c.isDigit
  · rfl
  · obtain ⟨d1, d2⟩ := isDigit_range hd
    omega

theorem not_alpha_of_digit {c : Char} (h : c.isDigit = true) : c.isAlpha = false := by
  obtain ⟨d1, d2⟩ := isDigit_range h
  cases ha : c.isAlpha
  · rfl
  · simp only [Char.isAlpha, Char.isUpper, Char.isLower, Bool.or_eq_true,
      Bool.and_eq_true, decide_eq_true_eq] at ha
    rcases ha with ⟨hu1, hu2⟩ | ⟨hl1, hl2⟩
    · have hle := uint32_le_iff.mp hu1
      have e1 : (65 : UInt32).toNat = 65 := rfl
      have e2 : c.val.toNat = c.toNat := rfl
      omega
    · have hle := uint32_le_iff.mp hl1
      have e1 : (97 : UInt32).toNat = 97 := rfl
      have e2 : c.val.toNat = c.toNat := rfl
      omega

theorem not_ws_of_range {c : Char} (h1 : 48 ≤ c.toNat) (h2 : c.toNat ≤ 90) :
    c.isWhitespace = false := by
  have hsp : c ≠ ' ' := by
    intro he; subst he
    have : (' ').toNat = 32 := rfl
    omega
  have hta : c ≠ '\t' := by
    intro he; subst he
    have : ('\t').toNat = 9 := rfl
    omega
  have hcr : c ≠ '\r' := by
    intro he; subst he
    have : ('\r').toNat = 13 := rfl
    omega
  have hlf : c ≠ '\n' := by
    intro he; subst he
    have : ('\n').toNat = 10 := rfl
    omega
  simp [Char.isWhitespace, hsp, hta, hcr, hlf]

theorem toUpper_id_of_range {c : Char} (h1 : 48 ≤ c.toNat) (h2 : c.toNat ≤ 90) :
    c.toUpper = c := by
  have hn : ¬ (c.toNat ≥ 97 ∧ c.toNat ≤ 122) := by omega
  simp [Char.toUpper, hn]

theorem dropWhile_eq_self_of_none {p : Char → Bool} :
    ∀ {l : List Char}, (∀ c ∈ l, p c = false) → l.dropWhile p = l
  | [], _ => rfl
  | c :: rest, h => by
    rw [List.dropWhile_cons, h c (List.mem_cons_self _ _)]
    simp

theorem stripChars_eq_self {l : List Char} (h : ∀ c ∈ l, c.isWhitespace = false) :
    stripChars l = l := by
  unfold stripChars
  rw [dropWhile_eq_self_of_none h,
    dropWhile_eq_self_of_none (fun c hc => h c (List.mem_reverse.mp hc)),
    List.reverse_reverse]

theorem map_eq_self_of_id {f : Char → Char} :
    ∀ {l : List Char}, (∀ c ∈ l, f c = c) → l.map f = l
  | [], _ => rfl
  | c :: rest, h => by
    rw [List.map_cons, h c (List.mem_cons_self _ _),
      map_eq_self_of_id (fun d hd => h d (List.mem_cons_of_mem _ hd))]

theorem cellScan_letters :
    ∀ (L rest letters : List Char), (∀ c ∈ L, c.isAlpha = true) →
      cellScan (L ++ rest) letters [] = cellScan rest (letters ++ L) []
  | [], rest, letters, _ => by simp
  | c :: L, rest, letters, h => by
    rw [List.cons_append]
    simp only [cellScan, h c (List.mem_cons_self _ _), List.isEmpty_nil, if_true]
    rw [cellScan_letters L rest (letters ++ [c])
      (fun d hd => h d (List.mem_cons_of_mem _ hd))]
    rw [List.append_assoc]
    rfl

theorem cellScan_digits :
    ∀ (D letters digits : List Char),
      (∀ c ∈ D, c.isDigit = true ∧ c.isAlpha = false) →
      cellScan D letters digits = some (letters, digits ++ D)
  | [], letters, digits, _ => by simp [cellScan]
  | c :: D, letters, digits, h => by
    unfold cellScan
    rw [(h c (List.mem_cons_self _ _)).2, (h c (List.mem_cons_self _ _)).1]
    simp only [Bool.false_eq_true, if_false, if_true]
    rw [cellScan_digits D letters (digits ++ [c])
      (fun d hd => h d (List.mem_cons_of_mem _ hd))]
    rw [List.append_assoc]
    rfl

theorem lettersVal_append (M : List Char) (c : Char) :
    lettersVal (M ++ [c]) = lettersVal M * 26 + (c.toNat - 64) := by
  unfold lettersVal
  rw [List.foldl_append]
  rfl

theorem lettersVal_pos :
    ∀ (L : List Char), L ≠ [] → (∀ c ∈ L, 65 ≤ c.toNat ∧ c.toNat ≤ 90) →
      1 ≤ lettersVal L := by
  intro L
  induction L using List.reverseRecOn with
  | nil => intro h; exact absurd rfl h
  | append_singleton M c _ =>
    intro _ h
    rw [lettersVal_append]
    have := (h c (by simp)).1
    omega

theorem columnLetterAux_zero (f : Nat) : columnLetterAux f 0 = [] := by
  cases f <;> rfl

theorem columnLetterAux_letters :
    ∀ (L : List Char), (∀ c ∈ L, 65 ≤ c.toNat ∧ c.toNat ≤ 90) →
      ∀ f, lettersVal L ≤ f → columnLetterAux f (lettersVal L) = L := by
  intro L
  induction L using List.reverseRecOn with
  | nil => intro _ f _; exact columnLetterAux_zero f
  | append_singleton M c ih =>
    intro h f hf
    have hc := h c (by simp)
    have hM : ∀ d ∈ M, 65 ≤ d.toNat ∧ d.toNat ≤ 90 :=
      fun d hd => h d (List.mem_append_left _ hd)
    rw [lettersVal_append] at hf ⊢
    set v := lettersVal M with hv
    set d := c.toNat - 64 with hd
    have hd1 : 1 ≤ d := by omega
    have hd26 : d ≤ 26 := by omega
    obtain ⟨f', rfl⟩ : ∃ f', f = f' + 1 := by
      cases f with
      | zero => omega
      | succ f' => exact ⟨f', rfl⟩
    have hm : v * 26 + d = (v * 26 + (d - 1)) + 1 := by omega
    rw [hm]
    show columnLetterAux f' ((v * 26 + (d - 1)) / 26) ++
      [Char.ofNat (65 + (v * 26 + (d - 1)) % 26)] = M ++ [c]
    have hdiv : (v * 26 + (d - 1)) / 26 = v := by
      rw [Nat.mul_comm v 26, Nat.mul_add_div (by omega)]
      rw [Nat.div_eq_of_lt (by omega)]
      omega
    have hmod : (v * 26 + (d - 1)) % 26 = d - 1 := by
      rw [Nat.mul_comm v 26, Nat.mul_add_mod]
      exact Nat.mod_eq_of_lt (by omega)
    rw [hdiv, hmod]
    have hchar : 65 + (d - 1) = c.toNat := by omega
    rw [hchar, Char.ofNat_toNat]
    have hf' : v ≤ f' := by
      have : 1 ≤ v * 26 + d := by omega
      omega
    rw [ih hM f' hf']

theorem columnLetter_letters (L : List Char) (hL : L ≠ [])
    (h : ∀ c ∈ L, 65 ≤ c.toNat ∧ c.toNat ≤ 90) :
    columnLetter (lettersVal L) = ⟨L⟩ := by
  unfold columnLetter
  rw [columnLetterAux_letters L h (lettersVal L) (Nat.le_refl _)]
  cases L with
  | nil => exact absurd rfl hL
  | cons a l => rfl

/-- C9.  Round trip between `_cell_to_indexes` and `_column_letter`: for a
non-empty sequence L of letters A-Z and a row whose decimal digit string D
has positive value r, the cell reference L ++ D parses to the zero-based pair
(r - 1, lettersVal L - 1), and mapping the 1-based column index back with
`_column_letter` yields L again; moreover index 1 maps to "A" and 27 to "AA". -/
theorem claim_C9_column_letter_round_trip (L D : List Char) (r : Nat)
    (hL : L ≠ []) (hLrange : ∀ c ∈ L, 'A' ≤ c ∧ c ≤ 'Z')
    (hD : D ≠ []) (hDdig : ∀ c ∈ D, c.isDigit = true)
    (hval : digitsVal D = r) (hr : 0 < r) :
    cellToIndexes ⟨L ++ D⟩ = some (r - 1, lettersVal L - 1) ∧
    columnLetter (lettersVal L - 1 + 1) = ⟨L⟩ ∧
    columnLetter 1 = "A" ∧ columnLetter 27 = "AA" := by
  have hLr : ∀ c ∈ L, 65 ≤ c.toNat ∧ c.toNat ≤ 90 := by
    intro c hc
    obtain ⟨h1, h2⟩ := hLrange c hc
    exact ⟨char_le_iff_toNat.mp h1, char_le_iff_toNat.mp h2⟩
  have hall : ∀ c ∈ L ++ D, 48 ≤ c.toNat ∧ c.toNat ≤ 90 := by
    intro c hc
    rcases List.mem_append.mp hc with hc | hc
    · have := hLr c hc; omega
    · have := isDigit_range (hDdig c hc); omega
  have hpos : 1 ≤ lettersVal L := lettersVal_pos L hL hLr
  refine ⟨?_, ?_, by decide, by decide⟩
  · unfold cellToIndexes
    have hne : (String.mk (L ++ D)).data.isEmpty = false := by
      cases L with
      | nil => exact absurd rfl hL
      | cons a l => rfl
    rw [hne]
    simp only [Bool.false_eq_true, if_false]
    have hstrip : pyStrip ⟨L ++ D⟩ = ⟨L ++ D⟩ := by
      unfold pyStrip
      rw [stripChars_eq_self (fun c hc => not_ws_of_range (hall c hc).1 (hall c hc).2)]
    have hupper : pyUpper ⟨L ++ D⟩ = ⟨L ++ D⟩ := by
      unfold pyUpper
      show String.mk ((L ++ D).map Char.toUpper) = _
      rw [map_eq_self_of_id (fun c hc => toUpper_id_of_range (hall c hc).1 (hall c hc).2)]
    rw [hstrip, hupper]
    show (match cellScan (L ++ D) [] [] with
      | none => none
      | some (letters, digits) =>
        if letters.isEmpty || digits.isEmpty then none
        else
          let rowIndex := digitsVal digits
          if rowIndex = 0 then none
          else some (rowIndex - 1, lettersVal letters - 1)) = _
    rw [cellScan_letters L D [] (fun c hc => isAlpha_of_upper_range (hLr c hc).1 (hLr c hc).2)]
    simp only [List.nil_append]
    rw [cellScan_digits D L []
        (fun c hc => ⟨hDdig c hc, not_alpha_of_digit (hDdig c hc)⟩)]
    simp only [List.nil_append]
    have hLe : L.isEmpty = false := by
      cases L with
      | nil => exact absurd rfl hL
      | cons a l => rfl
    have hDe : D.isEmpty = false := by
      cases D with
      | nil => exact absurd rfl hD
      | cons a l => rfl
    rw [hLe, hDe]
    simp only [Bool.or_self, Bool.false_eq_true, if_false]
    rw [hval]
    simp only [if_neg (by omega : ¬ r = 0)]
  · have : lettersVal L - 1 + 1 = lettersVal L := by omega
    rw [this]
    exact columnLetter_letters L hL hLr

/-- C9 witness: the reference "AB7" (letters "AB", digits "7", row 7). -/
theorem claim_C9_witness :
    cellToIndexes ⟨['A', 'B'] ++ ['7']⟩ = some (7 - 1, lettersVal ['A', 'B'] - 1) ∧
    columnLetter (lettersVal ['A', 'B'] - 1 + 1) = ⟨['A', 'B']⟩ ∧
    columnLetter 1 = "A" ∧ columnLetter 27 = "AA" :=
  claim_C9_column_letter_round_trip ['A', 'B'] ['7'] 7
    (by decide) (by decide) (by decide) (by decide) (by decide) (by decide)

/-! ## Characterization of the stats parser (claim C10) -/

/-- A "Scenario:" row capable of assigning the scenario accumulator
(key matches after strip, a second column exists). -/
def scenAssign (row : List String) : Bool :=
  pyStrip (row.headD "") == "Scenario:" && decide (1 < row.length)

/-- A "Score:" row capable of assigning the score accumulator. -/
def scoreAssign (row : List String) : Bool :=
  pyStrip (row.headD "") == "Score:" && decide (1 < row.length)

/-- The value column of a row (`row[1]`). -/
def rowValue (row : List String) : String := (row.get? 1).getD ""

/-- Claim-side reading of "the file has a Scenario: entry": some row assigns
a non-empty scenario name (the spec's other formulation, "missing scenario
field", treats a blank value as missing). -/
def hasScenarioEntry (rows : List (List String)) : Prop :=
  ∃ row ∈ rows, scenAssign row = true ∧ pyStrip (rowValue row) ≠ ""

/-- Claim-side reading of "the file has a Score: entry". -/
def hasScoreEntry (rows : List (List String)) : Prop :=
  ∃ row ∈ rows, scoreAssign row = true

/-- Claim-side reading of "its score value does not parse as a number". -/
def hasUnparsableScore (rows : List (List String)) : Prop :=
  ∃ row ∈ rows, scoreAssign row = true ∧ pyFloat? (rowValue row) = none

instance (rows : List (List String)) : Decidable (hasScenarioEntry rows) := by
  unfold hasScenarioEntry; infer_instance

instance (rows : List (List String)) : Decidable (hasScoreEntry rows) := by
  unfold hasScoreEntry; infer_instance

instance (rows : List (List String)) : Decidable (hasUnparsableScore rows) := by
  unfold hasUnparsableScore; infer_instance

/-- Whether a parse attempt succeeded. -/
def exceptIsOk : Except String ScenarioRun → Bool
  | .ok _ => true
  | .error _ => false

/-- C10 counterexample.  The claimed iff fails: this file HAS a "Scenario:"
entry with a non-empty value ("X"), HAS a "Score:" entry, and its (unique)
score value "5" parses, yet `parse_stats_file` raises, because the later
blank "Scenario:" row overwrites the accumulator before the score is seen
and the final `if not scenario` check then fails. -/
theorem claim_C10_counterexample :
    hasScenarioEntry [["Scenario:", "X"], ["Scenario:", ""], ["Score:", "5"]] ∧
    hasScoreEntry [["Scenario:", "X"], ["Scenario:", ""], ["Score:", "5"]] ∧
    ¬ hasUnparsableScore [["Scenario:", "X"], ["Scenario:", ""], ["Score:", "5"]] ∧
    exceptIsOk (parseStatsFile "f"
      [["Scenario:", "X"], ["Scenario:", ""], ["Score:", "5"]]) = false := by
  decide

/-- The scenario accumulator at the end of the scan: the (unique, under the
hypotheses below) assigning row wins, otherwise the initial value stands. -/
def scenFinal (rows : List (List String)) (scen : Option String) : Option String :=
  match rows.filter scenAssign with
  | ra :: _ => some (pyStrip (rowValue ra))
  | [] => scen

/-- The value `parseStatsLoop` is shown to compute on files with at most one
assignment row per field. -/
def loopSpec (rows : List (List String)) (scen : Option String) (sc : Option ℚ) :
    Except String (Option String × Option ℚ) :=
  match rows.filter scoreAssign with
  | r :: _ =>
    match pyFloat? (rowValue r) with
    | none => .error "Could not parse score value as float"
    | some q => .ok (scenFinal rows scen, some q)
  | [] => .ok (scenFinal rows scen, sc)

theorem scenAssign_not_score {row : List String} (h : scenAssign row = true) :
    scoreAssign row = false := by
  simp only [scenAssign, Bool.and_eq_true, beq_iff_eq] at h
  simp only [scoreAssign, h.1]
  have hne : ("Scenario:" == "Score:") = false := by decide
  rw [hne, Bool.false_and]

theorem loopSpec_cons_none {row : List String} {rest : List (List String)}
    {scen : Option String} {sc : Option ℚ}
    (h1 : scenAssign row = false) (h2 : scoreAssign row = false) :
    loopSpec (row :: rest) scen sc = loopSpec rest scen sc := by
  unfold loopSpec scenFinal
  simp only [List.filter_cons, h1, h2, Bool.false_eq_true, if_false]

theorem loopSpec_cons_scen {row : List String} {rest : List (List String)}
    {scen : Option String} {sc : Option ℚ}
    (h1 : scenAssign row = true) (hrest : rest.filter scenAssign = []) :
    loopSpec (row :: rest) scen sc =
      loopSpec rest (some (pyStrip (rowValue row))) sc := by
  unfold loopSpec scenFinal
  simp only [List.filter_cons, h1, scenAssign_not_score h1, Bool.false_eq_true,
    if_false, if_true, hrest]

theorem loopSpec_cons_score {row : List String} {rest : List (List String)}
    {scen : Option String} {sc : Option ℚ} {q : ℚ}
    (h1 : scoreAssign row = true) (h2 : scenAssign row = false)
    (hq : pyFloat? (rowValue row) = some q)
    (hrest : rest.filter scoreAssign = []) :
    loopSpec (row :: rest) scen sc = loopSpec rest scen (some q) := by
  unfold loopSpec scenFinal
  simp only [List.filter_cons, h1, h2, Bool.false_eq_true, if_false, if_true,
    hrest, hq]

/-- The scenario accumulator after one row. -/
def scenUpd (row : List String) (scen : Option String) : Option String :=
  if scenAssign row then some (pyStrip (rowValue row)) else scen

/-- One unfolding step of `parseStatsLoop` on a row with a non-empty key,
with the conditions phrased through `scenAssign` / `scoreAssign`. -/
theorem parseStatsLoop_cons_step (k : String) (tl : List String)
    (rest : List (List String)) (scen : Option String) (sc : Option ℚ)
    (hkey : (pyStrip k).isEmpty = false) :
    parseStatsLoop ((k :: tl) :: rest) scen sc =
      (if scoreAssign (k :: tl) then
        match pyFloat? (rowValue (k :: tl)) with
        | none => .error "Could not parse score value as float"
        | some q =>
          if scenarioTruthy (scenUpd (k :: tl) scen) then .ok (scenUpd (k :: tl) scen, some q)
          else parseStatsLoop rest (scenUpd (k :: tl) scen) (some q)
      else
        if scenarioTruthy (scenUpd (k :: tl) scen) && sc.isSome then
          .ok (scenUpd (k :: tl) scen, sc)
        else parseStatsLoop rest (scenUpd (k :: tl) scen) sc) := by
  conv_lhs => rw [parseStatsLoop]
  simp only [hkey, Bool.false_eq_true, if_false, scenUpd, scenAssign, scoreAssign,
    rowValue, List.headD_cons]

/-- Characterization of the parse loop on files with at most one
"Scenario:"-assigning row and at most one "Score:"-assigning row (and whose
initial accumulators, when already set, have no assigning row left). -/
theorem parseStatsLoop_char :
    ∀ (rows : List (List String)) (scen : Option String) (sc : Option ℚ),
      (scen.isSome = true → rows.filter scenAssign = []) →
      (rows.filter scenAssign).length ≤ 1 →
      (sc.isSome = true → rows.filter scoreAssign = []) →
      (rows.filter scoreAssign).length ≤ 1 →
      parseStatsLoop rows scen sc = loopSpec rows scen sc
  | [], scen, sc, _, _, _, _ => rfl
  | [] :: rest, scen, sc, h1, h2, h3, h4 => by
    have e1 : scenAssign ([] : List String) = false := rfl
    have e2 : scoreAssign ([] : List String) = false := rfl
    simp only [List.filter_cons, e1, e2, Bool.false_eq_true, if_false] at h1 h2 h3 h4
    show parseStatsLoop rest scen sc = _
    rw [parseStatsLoop_char rest scen sc h1 h2 h3 h4, loopSpec_cons_none e1 e2]
  | (k :: tl) :: rest, scen, sc, h1, h2, h3, h4 => by
    by_cases hkey : (pyStrip k).isEmpty = true
    · -- blank key: the row is skipped and assigns nothing
      have hk : pyStrip k = "" := (String.isEmpty_iff _).mp hkey
      have e1 : scenAssign (k :: tl) = false := by
        simp only [scenAssign, List.headD_cons, hk]
        have hne : ("" == "Scenario:") = false := by decide
        rw [hne, Bool.false_and]
      have e2 : scoreAssign (k :: tl) = false := by
        simp only [scoreAssign, List.headD_cons, hk]
        have hne : ("" == "Score:") = false := by decide
        rw [hne, Bool.false_and]
      simp only [List.filter_cons, e1, e2, Bool.false_eq_true, if_false] at h1 h2 h3 h4
      have step : parseStatsLoop ((k :: tl) :: rest) scen sc =
          parseStatsLoop rest scen sc := by
        conv_lhs => rw [parseStatsLoop]
        simp only [hkey, if_true]
      rw [step, parseStatsLoop_char rest scen sc h1 h2 h3 h4, loopSpec_cons_none e1 e2]
    · have hkf : (pyStrip k).isEmpty = false := by
        cases hv : (pyStrip k).isEmpty
        · rfl
        · exact absurd hv hkey
      rw [parseStatsLoop_cons_step k tl rest scen sc hkf]
      by_cases hscen : scenAssign (k :: tl) = true
      · -- the unique scenario-assigning row
        have hscore : scoreAssign (k :: tl) = false := scenAssign_not_score hscen
        simp only [List.filter_cons, hscen, hscore, if_true, Bool.false_eq_true,
          if_false] at h1 h2 h3 h4
        have hrestA : rest.filter scenAssign = [] := by
          rw [List.length_cons] at h2
          have := Nat.le_of_succ_le_succ h2
          exact List.length_eq_zero.mp (Nat.le_zero.mp this)
        have hupd : scenUpd (k :: tl) scen = some (pyStrip (rowValue (k :: tl))) := by
          simp [scenUpd, hscen]
        rw [hscore]
        simp only [Bool.false_eq_true, if_false, hupd]
        by_cases hbreak : (scenarioTruthy (some (pyStrip (rowValue (k :: tl)))) &&
            sc.isSome) = true
        · rw [if_pos hbreak]
          have hsome : sc.isSome = true := (Bool.and_eq_true .. ▸ hbreak).2
          have hrestB := h3 hsome
          unfold loopSpec scenFinal
          simp only [List.filter_cons, hscen, hscore, Bool.false_eq_true, if_false,
            if_true, hrestB]
        · rw [if_neg (by simpa using hbreak)]
          have ih := parseStatsLoop_char rest (some (pyStrip (rowValue (k :: tl)))) sc
            (fun _ => hrestA) (by rw [hrestA]; exact Nat.zero_le _) h3 h4
          rw [ih, loopSpec_cons_scen hscen hrestA]
      · have hscenf : scenAssign (k :: tl) = false := by
          cases hv : scenAssign (k :: tl)
          · rfl
          · exact absurd hv hscen
        have hupd : scenUpd (k :: tl) scen = scen := by
          simp [scenUpd, hscenf]
        rw [hupd]
        by_cases hscore : scoreAssign (k :: tl) = true
        · -- the unique score-assigning row
          simp only [List.filter_cons, hscenf, hscore, if_true, Bool.false_eq_true,
            if_false] at h1 h2 h3 h4
          have hrestB : rest.filter scoreAssign = [] := by
            rw [List.length_cons] at h4
            have := Nat.le_of_succ_le_succ h4
            exact List.length_eq_zero.mp (Nat.le_zero.mp this)
          rw [hscore]
          simp only [if_true]
          cases hq : pyFloat? (rowValue (k :: tl)) with
          | none =>
            unfold loopSpec
            simp only [List.filter_cons, hscore, if_true, hq]
          | some q =>
            dsimp only
            by_cases htr : scenarioTruthy scen = true
            · rw [if_pos htr]
              have hsome : scen.isSome = true := by
                cases scen with
                | none => simp [scenarioTruthy] at htr
                | some s => rfl
              have hrestA := h1 hsome
              unfold loopSpec scenFinal
              simp only [List.filter_cons, hscenf, hscore, Bool.false_eq_true,
                if_false, if_true, hrestA, hq]
            · rw [if_neg htr]
              have ih := parseStatsLoop_char rest scen (some q) h1 h2
                (fun _ => hrestB) (by rw [hrestB]; exact Nat.zero_le _)
              rw [ih, loopSpec_cons_score hscore hscenf hq hrestB]
        · have hscoref : scoreAssign (k :: tl) = false := by
            cases hv : scoreAssign (k :: tl)
            · rfl
            · exact absurd hv hscore
          simp only [List.filter_cons, hscenf, hscoref, Bool.false_eq_true,
            if_false] at h1 h2 h3 h4
          rw [hscoref]
          simp only [Bool.false_eq_true, if_false]
          by_cases hbreak : (scenarioTruthy scen && sc.isSome) = true
          · rw [if_pos hbreak]
            obtain ⟨htr, hsome⟩ := Bool.and_eq_true .. ▸ hbreak
            have hscensome : scen.isSome = true := by
              cases scen with
              | none => simp [scenarioTruthy] at htr
              | some s => rfl
            have hrestA := h1 hscensome
            have hrestB := h3 hsome
            unfold loopSpec scenFinal
            simp only [List.filter_cons, hscenf, hscoref, Bool.false_eq_true,
              if_false, hrestA, hrestB]
          · rw [if_neg (by simpa using hbreak)]
            rw [parseStatsLoop_char rest scen sc h1 h2 h3 h4,
              loopSpec_cons_none hscenf hscoref]

/-- C10 amended.  First conjunct: for files with at most one assigning
"Scenario:" row and at most one assigning "Score:" row, `parse_stats_file`
raises exactly when the file lacks a (non-blank) scenario entry, lacks a
score entry, or its score value does not parse as a number.  (With repeated
entries the simple characterization fails: a later blank "Scenario:" row
overwrites an earlier valid one, per the counterexample.)  Second conjunct:
a file whose parse raises is still appended to the processed list by
`_collect_runs` and contributes no run - the pass continues on the remaining
files. -/
theorem claim_C10_parse_error_characterization :
    (∀ (p : String) (rows : List (List String)),
      (rows.filter scenAssign).length ≤ 1 →
      (rows.filter scoreAssign).length ≤ 1 →
      (exceptIsOk (parseStatsFile p rows) = false ↔
        (¬ hasScenarioEntry rows ∨ ¬ hasScoreEntry rows ∨ hasUnparsableScore rows))) ∧
    (∀ (p : String) (rows : List (List String))
        (rest : List (String × List (List String)))
        (processed : List String) (skipProcessed : Bool) (e : String),
      parseStatsFile p rows = .error e →
      processed.contains p = false →
      collectRunsGo skipProcessed ((p, rows) :: rest) processed =
        collectRunsGo skipProcessed rest (processed ++ [p])) := by
  constructor
  · intro p rows hA hB
    unfold parseStatsFile
    rw [parseStatsLoop_char rows none none (fun h => by simp at h) hA
      (fun h => by simp at h) hB]
    unfold loopSpec scenFinal
    cases hsc : rows.filter scoreAssign with
    | nil =>
      have hnsco : ¬ hasScoreEntry rows := by
        rintro ⟨row, hmem, hassign⟩
        have hf : row ∈ rows.filter scoreAssign := List.mem_filter.mpr ⟨hmem, hassign⟩
        rw [hsc] at hf
        simp at hf
      refine ⟨fun _ => Or.inr (Or.inl hnsco), fun _ => ?_⟩
      dsimp only
      cases rows.filter scenAssign with
      | nil => rfl
      | cons ra rarest =>
        dsimp only
        cases htr : scenarioTruthy (some (pyStrip (rowValue ra))) <;> rfl
    | cons r rrest =>
      have hmemr : r ∈ rows ∧ scoreAssign r = true := by
        have hf := List.mem_filter.mp (hsc ▸ List.mem_cons_self r rrest)
        exact ⟨hf.1, hf.2⟩
      have hrrest : rrest = [] := by
        rw [hsc] at hB
        rw [List.length_cons] at hB
        exact List.length_eq_zero.mp (Nat.le_zero.mp (Nat.le_of_succ_le_succ hB))
      dsimp only
      cases hq : pyFloat? (rowValue r) with
      | none =>
        refine ⟨fun _ => Or.inr (Or.inr ⟨r, hmemr.1, hmemr.2, hq⟩), fun _ => rfl⟩
      | some q =>
        dsimp only
        have hsco : hasScoreEntry rows := ⟨r, hmemr.1, hmemr.2⟩
        have hnup : ¬ hasUnparsableScore rows := by
          rintro ⟨row, hmem, hassign, hnone⟩
          have hf : row ∈ rows.filter scoreAssign := List.mem_filter.mpr ⟨hmem, hassign⟩
          rw [hsc, hrrest] at hf
          rw [List.mem_singleton] at hf
          subst hf
          rw [hq] at hnone
          exact absurd hnone (by simp)
        cases hsa : rows.filter scenAssign with
        | nil =>
          have hnsc : ¬ hasScenarioEntry rows := by
            rintro ⟨row, hmem, hassign, _⟩
            have hf : row ∈ rows.filter scenAssign := List.mem_filter.mpr ⟨hmem, hassign⟩
            rw [hsa] at hf
            simp at hf
          exact ⟨fun _ => Or.inl hnsc, fun _ => rfl⟩
        | cons ra rarest =>
          have hmemra : ra ∈ rows ∧ scenAssign ra = true := by
            have hf := List.mem_filter.mp (hsa ▸ List.mem_cons_self ra rarest)
            exact ⟨hf.1, hf.2⟩
          have hrarest : rarest = [] := by
            rw [hsa] at hA
            rw [List.length_cons] at hA
            exact List.length_eq_zero.mp (Nat.le_zero.mp (Nat.le_of_succ_le_succ hA))
          by_cases hval : pyStrip (rowValue ra) = ""
          · have htr : scenarioTruthy (some (pyStrip (rowValue ra))) = false := by
              rw [hval]; rfl
            have hnsc : ¬ hasScenarioEntry rows := by
              rintro ⟨row, hmem, hassign, hv⟩
              have hf : row ∈ rows.filter scenAssign := List.mem_filter.mpr ⟨hmem, hassign⟩
              rw [hsa, hrarest] at hf
              rw [List.mem_singleton] at hf
              subst hf
              exact hv hval
            rw [htr]
            exact ⟨fun _ => Or.inl hnsc, fun _ => rfl⟩
          · have hie : (pyStrip (rowValue ra)).isEmpty = false := by
              cases hv : (pyStrip (rowValue ra)).isEmpty
              · rfl
              · exact absurd ((String.isEmpty_iff _).mp hv) hval
            have htr : scenarioTruthy (some (pyStrip (rowValue ra))) = true := by
              simp [scenarioTruthy, hie]
            have hsc2 : hasScenarioEntry rows := ⟨ra, hmemra.1, hmemra.2, hval⟩
            rw [htr]
            simp only [Bool.not_true, Bool.false_eq_true, if_false]
            constructor
            · intro hfalse
              exact absurd hfalse (by simp [exceptIsOk])
            · rintro (hc | hc | hc)
              · exact absurd hsc2 hc
              · exact absurd hsco hc
              · exact absurd hc hnup
  · intro p rows rest processed skipProcessed e hp hcont
    conv_lhs => rw [collectRunsGo]
    rw [hcont, Bool.and_false]
    simp only [Bool.false_eq_true, if_false, hp]

/-- C10 witness: both conjuncts of the amended claim applied to concrete
inputs (a well-formed single-entry file for the characterization; a
malformed file, under both skip modes, for the collection behaviour). -/
theorem claim_C10_witness :
    (exceptIsOk (parseStatsFile "f" [["Scenario:", "X"], ["Score:", "5"]]) = false ↔
      (¬ hasScenarioEntry [["Scenario:", "X"], ["Score:", "5"]] ∨
       ¬ hasScoreEntry [["Scenario:", "X"], ["Score:", "5"]] ∨
       hasUnparsableScore [["Scenario:", "X"], ["Score:", "5"]])) ∧
    collectRunsGo true [("g", [["Score:", "abc"]])] [] =
      collectRunsGo true [] ["g"] :=
  ⟨claim_C10_parse_error_characterization.1 "f" [["Scenario:", "X"], ["Score:", "5"]]
      (by decide) (by decide),
   claim_C10_parse_error_characterization.2 "g" [["Score:", "abc"]] [] [] true
      "Could not parse score value as float" (by decide) (by decide)⟩

end Viscose
